import Mathlib

/-!
Verification of the analytical core of the video-coach telemetry application.

The definitions below are a shallow embedding of the JavaScript source
(src/script.js, together with the method listings reproduced in
src/README.md).  JavaScript numbers are IEEE-754 doubles; every double is a
rational number, and all the code under study uses only field operations,
absolute values and order comparisons on them, so numeric values are
modelled by a linear ordered field, instantiated at ℚ for executable
witnesses and at ℝ where the source calls the transcendental library
functions (Math.cos, Math.sin, Math.sqrt, Math.PI).
-/

namespace VideoCoach

/-- One parsed telemetry sample (the object literal built in parseCsvData,
script.js lines 419-428). -/
structure Sample (α : Type) where
  time : α
  speed : α
  latAcc : α
  lonAcc : α
  altitude : α
  lat : α
  lon : α
  heading : α
  deriving Repr, DecidableEq

/-- A sector gate: the object returned by createPerpendicularLine
(script.js lines 1037-1047).  The trajectoryVector and perpVector fields of
the source object are carried verbatim. -/
structure Border (α : Type) where
  time : α
  centerLat : α
  centerLon : α
  trajectoryVectorLat : α
  trajectoryVectorLon : α
  perpVectorLat : α
  perpVectorLon : α
  startLat : α
  startLon : α
  endLat : α
  endLon : α
  deriving Repr, DecidableEq

/-- The bundle of library functions the source takes from Math: cos, sin,
sqrt and the constant PI.  Definitions needing them are parameterised by
this record; realOps instantiates it with the genuine real functions. -/
structure RealOps (α : Type) where
  cos : α → α
  sin : α → α
  sqrt : α → α
  pi : α

/-- The genuine Math library operations on the reals. -/
noncomputable def realOps : RealOps ℝ :=
  ⟨Real.cos, Real.sin, Real.sqrt, Real.pi⟩

variable {α : Type} [LinearOrderedField α]

/-! ## Sync and query layer -/

/-- Video-to-telemetry conversion as used by the query operation:
updateTelemetryDisplay computes the telemetry time as
video.currentTime - syncOffset (script.js line 483, README line 624).
The operation bails out first when syncOffset is the 0 sentinel. -/
def telemetryTimeForVideo (syncOffset videoTime : α) : α :=
  videoTime - syncOffset

/-- Telemetry-to-video conversion as used by jump-to-lap-start:
targetVideoTime = lapStartTime + syncOffset (README line 942; script.js
line 615 in the syncOffset ≠ 0 branch). -/
def videoTimeForTelemetry (syncOffset telemetryTime : α) : α :=
  telemetryTime + syncOffset

/-! ## Lap indexer -/

/-- Helper for calculateLapStartTimes: walks the lap-time list keeping the
cumulative sum, pushing a start time for every lap except the last
(script.js lines 518-523). -/
def lapStartsAux (cum : α) : List α → List α
  | [] => []
  | [_] => []
  | t :: t2 :: rest => (cum + t) :: lapStartsAux (cum + t) (t2 :: rest)

/-- calculateLapStartTimes (script.js lines 513-526): the out lap starts at
0 and each subsequent lap starts at the cumulative sum of all preceding lap
times. -/
def calculateLapStartTimes (lapTimes : List α) : List α :=
  0 :: lapStartsAux 0 lapTimes

/-- The scan loop of findBestLapIndex (script.js lines 664-669, README
lines 2333-2339): strict improvement only, so the earliest index achieving
the minimum wins.  Arguments: remaining lap times, index of the head of the
remaining list, current best index, current best time. -/
def bestScanAux : List α → Nat → Nat → α → Nat
  | [], _, bestIdx, _ => bestIdx
  | t :: rest, i, bestIdx, bestTime =>
    if t < bestTime then bestScanAux rest (i + 1) i t
    else bestScanAux rest (i + 1) bestIdx bestTime

/-- findBestLapIndex (README lines 2322-2343; inlined in
generateSectorSplits, script.js lines 660-669): -1 on an empty list,
otherwise start from index 1 when more than one lap exists (skipping the
out lap) and from index 0 when there is exactly one lap, then scan for a
strictly smaller lap time. -/
def findBestLapIndex (lapTimes : List α) : Int :=
  match lapTimes with
  | [] => -1
  | [_] => 0
  | _ :: t1 :: rest => (bestScanAux rest 2 1 t1 : Int)

/-! ## Telemetry parser -/

/-- Does the character list start with the given pattern? -/
def startsWithChars : List Char → List Char → Bool
  | _, [] => true
  | [], _ :: _ => false
  | a :: as, b :: bs => a = b && startsWithChars as bs

/-- JavaScript String.prototype.includes: does the first list contain the
second as a contiguous substring? -/
def containsChars : List Char → List Char → Bool
  | [], pat => startsWithChars [] pat
  | a :: rest, pat => startsWithChars (a :: rest) pat || containsChars rest pat

/-- String.prototype.includes on Lean strings. -/
def jsIncludes (s pat : String) : Bool :=
  containsChars s.toList pat.toList

/-- JavaScript String.prototype.trim: strip leading and trailing
whitespace. -/
def trimChars (s : List Char) : List Char :=
  ((s.dropWhile Char.isWhitespace).reverse.dropWhile Char.isWhitespace).reverse

/-- String.prototype.trim on Lean strings. -/
def jsTrim (s : String) : String :=
  String.mk (trimChars s.toList)

/-- Helper for jsSplitNewline: split a character list on newline
characters, the accumulator holding the current line reversed. -/
def splitNewlineAux (current : List Char) : List Char → List String
  | [] => [String.mk current.reverse]
  | c :: rest =>
    if c = '\n' then String.mk current.reverse :: splitNewlineAux [] rest
    else splitNewlineAux (c :: current) rest

/-- JavaScript String.prototype.split with separator newline, as used by
csvText.split of parseCsvData (script.js line 350). -/
def jsSplitNewline (s : String) : List String :=
  splitNewlineAux [] s.toList

/-- State-machine core of parseCsvLine (script.js lines 444-464): split on
commas that are not inside double quotes, dropping the quote characters and
trimming every field. -/
def parseCsvLineAux (inQuotes : Bool) (current : List Char) : List Char → List String
  | [] => [String.mk (trimChars current.reverse)]
  | c :: rest =>
    if c = '"' then parseCsvLineAux (!inQuotes) current rest
    else if c = ',' && !inQuotes then
      String.mk (trimChars current.reverse) :: parseCsvLineAux inQuotes [] rest
    else parseCsvLineAux inQuotes (c :: current) rest

/-- parseCsvLine (script.js lines 444-464). -/
def parseCsvLine (line : String) : List String :=
  parseCsvLineAux false [] line.toList

/-- JavaScript Array.prototype.indexOf on strings: first index of an exact
match, -1 when absent (used to resolve column indices, script.js lines
386-393). -/
def jsIndexOf (xs : List String) (x : String) : Int :=
  match xs.findIdx? (fun y => y = x) with
  | some i => (i : Int)
  | none => -1

/-- Digit run parser for the jsParseFloat model: consumes leading digits,
returning their value, the number of digits and the rest. -/
def takeDigits : List Char → Nat × Nat × List Char
  | [] => (0, 0, [])
  | c :: rest =>
    if c.isDigit then
      let (v, n, r) := takeDigits rest
      ((c.toNat - '0'.toNat) * 10 ^ n + v, n + 1, r)
    else (0, 0, c :: rest)

/-- Leading-sign handling for the jsParseFloat model: whether the number
is negated, and the remaining characters. -/
def signSplit : List Char → Bool × List Char
  | [] => (false, [])
  | c :: r =>
    if c = '-' then (true, r)
    else if c = '+' then (false, r)
    else (false, c :: r)

/-- Fractional-part handling for the jsParseFloat model: the value and
digit count of the digits following a decimal point, if one is present. -/
def fracDigits : List Char → Nat × Nat
  | [] => (0, 0)
  | c :: r =>
    if c = '.' then ((takeDigits r).1, (takeDigits r).2.1)
    else (0, 0)

/-- Model of JavaScript parseFloat restricted to the shapes that occur in
telemetry files: optional sign, then digits with an optional fractional
part, reading the longest numeric prefix of the (already trimmed) field;
none models NaN (no parseable number).  Exponent suffixes and the Infinity
literal are outside the model. -/
def jsParseFloat (s : String) : Option α :=
  let (neg, rest) := signSplit s.toList
  let (ip, ipDigits, afterInt) := takeDigits rest
  let (fp, fpDigits) := fracDigits afterInt
  if ipDigits = 0 && fpDigits = 0 then none
  else
    let sign : α := if neg then -1 else 1
    some (sign * ((ip : α) + (fp : α) / (10 : α) ^ fpDigits))

/-- The resolved column indices of parseCsvData (script.js lines 386-393);
-1 encodes an absent column, exactly as Array.indexOf reports it. -/
structure ColumnIdx where
  timeIndex : Int
  speedIndex : Int
  latAccIndex : Int
  lonAccIndex : Int
  altitudeIndex : Int
  latIndex : Int
  lonIndex : Int
  headingIndex : Int
  deriving Repr, DecidableEq

/-- Column resolution from the raw header line (script.js lines 384-393). -/
def resolveColumns (headerLine : String) : ColumnIdx :=
  let headers := parseCsvLine headerLine
  ⟨jsIndexOf headers "Time", jsIndexOf headers "GPS Speed",
   jsIndexOf headers "GPS LatAcc", jsIndexOf headers "GPS LonAcc",
   jsIndexOf headers "Altitude", jsIndexOf headers "GPS Latitude",
   jsIndexOf headers "GPS Longitude", jsIndexOf headers "GPS Heading"⟩

/-- maxIndex (script.js line 401): Math.max over all eight resolved column
indices, required and optional alike. -/
def maxIndex (cols : ColumnIdx) : Int :=
  max cols.timeIndex (max cols.speedIndex (max cols.latAccIndex
    (max cols.lonAccIndex (max cols.altitudeIndex (max cols.latIndex
      (max cols.lonIndex cols.headingIndex))))))

/-- JavaScript values[idx] for an Int index: the field when the index is a
valid position, the empty string otherwise (an absent field parses to NaN,
matching parseFloat(undefined)). -/
def fieldAt (values : List String) (idx : Int) : String :=
  match idx with
  | Int.ofNat n => (values.getD n "")
  | Int.negSucc _ => ""

/-- Optional-column field extraction (script.js lines 411-416): parse the
field when the column index is not -1, yield 0 otherwise; a NaN parse also
collapses to 0 at sample construction (lines 422-427). -/
def optField (values : List String) (idx : Int) : α :=
  if idx = -1 then 0
  else
    match (jsParseFloat (fieldAt values idx) : Option α) with
    | some v => v
    | none => 0

/-- Per-row body of the data loop of parseCsvData (script.js lines
403-431): trim, drop blank rows, split, drop rows with no field beyond
maxIndex, then require numeric time and speed; everything else defaults
through optField. -/
def parseDataRow (cols : ColumnIdx) (rawLine : String) : Option (Sample α) :=
  let line := jsTrim rawLine
  if line = "" then none
  else
    let values := parseCsvLine line
    if (values.length : Int) > maxIndex cols then
      match (jsParseFloat (fieldAt values cols.timeIndex) : Option α),
            (jsParseFloat (fieldAt values cols.speedIndex) : Option α) with
      | some time, some speed =>
        some ⟨time, speed, optField values cols.latAccIndex,
              optField values cols.lonAccIndex, optField values cols.altitudeIndex,
              optField values cols.latIndex, optField values cols.lonIndex,
              optField values cols.headingIndex⟩
      | _, _ => none
    else none

/-- The header-search loop of parseCsvData (script.js lines 355-377):
first line whose trimmed text contains both a quoted Time and a quoted GPS
Speed token; lines starting with a quoted Segment Times token are consumed
by the lap-time branch and can never become the header. -/
def findHeaderIndex : List String → Option Nat
  | [] => none
  | line :: rest =>
    let t := jsTrim line
    if startsWithChars t.toList ("\"Segment Times\"").toList then
      match findHeaderIndex rest with
      | some i => some (i + 1)
      | none => none
    else if jsIncludes t "\"Time\"" && jsIncludes t "\"GPS Speed\"" then some 0
    else
      match findHeaderIndex rest with
      | some i => some (i + 1)
      | none => none

/-- parseCsvData (script.js lines 349-442), modelling the parse outcome:
the thrown errors become Except.error and the accumulated telemetry
samples are the success value.  The lap-time extraction of the Segment
Times branch writes separate state not consumed by the claims under study
and is not modelled here. -/
def parseCsvData (csvText : String) : Except String (List (Sample α)) :=
  let lines := jsSplitNewline csvText
  match findHeaderIndex lines with
  | none => Except.error "Could not find data header in CSV file"
  | some headerIndex =>
    let cols := resolveColumns (lines.getD headerIndex "")
    if cols.timeIndex = -1 ∨ cols.speedIndex = -1 then
      Except.error "Could not find Time or GPS Speed columns"
    else
      Except.ok ((lines.drop (headerIndex + 2)).filterMap (parseDataRow cols))

/-! ## Gate-crossing geometry -/

/-- The intersection result object of lineSegmentIntersection (script.js
lines 1190-1194): the intersection point and the interpolation factor t
for the first (trajectory) segment. -/
structure IntersectionResult (α : Type) where
  lon : α
  lat : α
  t : α
  deriving Repr, DecidableEq

/-- lineSegmentIntersection (script.js lines 1178-1198): determinant-based
segment intersection; near-parallel pairs (|denom| < 1e-10) and parameter
values outside [0,1] on either segment yield none. -/
def lineSegmentIntersection (x1 y1 x2 y2 x3 y3 x4 y4 : α) :
    Option (IntersectionResult α) :=
  let denom := (x1 - x2) * (y3 - y4) - (y1 - y2) * (x3 - x4)
  if |denom| < 1 / 10 ^ 10 then none
  else
    let t := ((x1 - x3) * (y3 - y4) - (y1 - y3) * (x3 - x4)) / denom
    let u := -((x1 - x2) * (y1 - y3) - (y1 - y2) * (x1 - x3)) / denom
    if 0 ≤ t ∧ t ≤ 1 ∧ 0 ≤ u ∧ u ≤ 1 then
      some ⟨x1 + t * (x2 - x1), y1 + t * (y2 - y1), t⟩
    else none

/-- The squared distance from a point to the finite gate segment, i.e. the
quantity whose square root distanceToLineSegment (script.js lines
1150-1175) returns.  The source compares these distances only with <, and
Real.sqrt is strictly monotone on nonnegative arguments (witnessed by
distanceToLineSegment_lt_iff below), so the embedding tracks the squared
distance. -/
def distanceToLineSegmentSq (point : Sample α) (border : Border α) : α :=
  let x := point.lon
  let y := point.lat
  let x1 := border.startLon
  let y1 := border.startLat
  let x2 := border.endLon
  let y2 := border.endLat
  let segmentLengthSquared := (x2 - x1) * (x2 - x1) + (y2 - y1) * (y2 - y1)
  if segmentLengthSquared = 0 then (x - x1) * (x - x1) + (y - y1) * (y - y1)
  else
    let t := max 0 (min 1 (((x - x1) * (x2 - x1) + (y - y1) * (y2 - y1)) / segmentLengthSquared))
    let closestX := x1 + t * (x2 - x1)
    let closestY := y1 + t * (y2 - y1)
    (x - closestX) * (x - closestX) + (y - closestY) * (y - closestY)

/-- distanceToLineSegment itself (script.js lines 1150-1175): the square
root of the squared distance, in either branch of the source. -/
noncomputable def distanceToLineSegment (point : Sample ℝ) (border : Border ℝ) : ℝ :=
  Real.sqrt (distanceToLineSegmentSq point border)

/-- The intersection loop of findBorderCrossing (script.js lines
1104-1132): walk consecutive sample pairs in trajectory order; on the
first pair whose segment intersects the gate segment, clamp the
interpolation factor, interpolate the crossing time, and return it if it
lies between the two bounding sample times, otherwise keep scanning. -/
def intersectScan (border : Border α) : List (Sample α) → Option α
  | p1 :: p2 :: rest =>
    match lineSegmentIntersection p1.lon p1.lat p2.lon p2.lat
        border.startLon border.startLat border.endLon border.endLat with
    | some inter =>
      let t := max 0 (min 1 inter.t)
      let preciseCrossingTime := p1.time + t * (p2.time - p1.time)
      if p1.time ≤ preciseCrossingTime ∧ preciseCrossingTime ≤ p2.time then
        some preciseCrossingTime
      else intersectScan border (p2 :: rest)
    | none => intersectScan border (p2 :: rest)
  | _ => none

/-- The closest-point fallback loop of findBorderCrossing (script.js lines
1136-1144): scan every sample, strict improvement only, so the earliest
sample achieving the minimum distance wins.  Distances are compared via
their squares (see distanceToLineSegmentSq). -/
def fallbackScan (border : Border α) (bestTime minDistSq : α) : List (Sample α) → α
  | [] => bestTime
  | p :: rest =>
    let d := distanceToLineSegmentSq p border
    if d < minDistSq then fallbackScan border p.time d rest
    else fallbackScan border bestTime minDistSq rest

/-- findBorderCrossing (script.js lines 1095-1147).  The source
dereferences lapData[0], so call sites guarantee a nonempty list; the
empty case returns 0 to keep the function total. -/
def findBorderCrossing (lapData : List (Sample α)) (border : Border α) : α :=
  match lapData with
  | [] => 0
  | p0 :: _ =>
    match intersectScan border lapData with
    | some c => c
    | none =>
      fallbackScan border p0.time (distanceToLineSegmentSq p0 border) lapData

/-! ## Per-lap sector timing -/

/-- The border loop of calculateLapSectorTimes (script.js lines
1077-1085): accrue a sector duration at each crossing that advances the
running boundary. -/
def sectorLoop (lapData : List (Sample α)) (boundary : α) :
    List (Border α) → List α × α
  | [] => ([], boundary)
  | border :: rest =>
    let crossingTime := findBorderCrossing lapData border
    if crossingTime > boundary then
      ((crossingTime - boundary) :: (sectorLoop lapData crossingTime rest).1,
       (sectorLoop lapData crossingTime rest).2)
    else sectorLoop lapData boundary rest

/-- The lap end time computation shared by calculateLapSectorTimes,
generateSectorSplits and the diff engine (script.js lines 1061-1063):
the next lap start when one exists, otherwise start plus lap time. -/
def lapEndTimeOf (lapTimes lapStartTimes : List α) (lapIndex : Nat) : α :=
  if lapIndex < lapStartTimes.length - 1 then lapStartTimes.getD (lapIndex + 1) 0
  else lapStartTimes.getD lapIndex 0 + lapTimes.getD lapIndex 0

/-- calculateLapSectorTimes (script.js lines 1059-1093): filter the lap's
samples, return the whole lap time as a single sector when there are no
samples or no gates, otherwise accrue a duration per advancing gate
crossing and close with the remainder to lap end. -/
def calculateLapSectorTimes (lapTimes lapStartTimes : List α)
    (telemetryData : List (Sample α)) (sectorBorders : List (Border α))
    (lapIndex : Nat) : List α :=
  let lapStartTime := lapStartTimes.getD lapIndex 0
  let lapEndTime := lapEndTimeOf lapTimes lapStartTimes lapIndex
  let lapData := telemetryData.filter
    (fun point => lapStartTime ≤ point.time ∧ point.time ≤ lapEndTime)
  if lapData.length = 0 ∨ sectorBorders.length = 0 then [lapTimes.getD lapIndex 0]
  else
    let (sectorTimes, boundary) := sectorLoop lapData lapStartTime sectorBorders
    if boundary < lapEndTime then sectorTimes ++ [lapEndTime - boundary]
    else sectorTimes

/-! ## Deceleration detection and sector segmentation -/

/-- A time span with its duration: the shape of the deceleration-period
and sector objects of findAccelerationPeriods.  The startIndex/endIndex
bookkeeping fields of the source objects are never read by the code under
study and are not modelled. -/
structure TimeSpan (α : Type) where
  startTime : α
  endTime : α
  duration : α
  deriving Repr, DecidableEq

/-- Step 1 of findAccelerationPeriods (script.js lines 807-849): walk
consecutive sample pairs; skip pairs with nonpositive time delta; open an
episode when the instantaneous acceleration drops below -0.5, close it
when the acceleration returns to at least -0.5 keeping it only when it
lasted at least 1.0 s; an episode still open after the last sample is kept
at the looser 0.2 s threshold. -/
def decelScan (prev : Sample α) (openStart : Option α) :
    List (Sample α) → List (TimeSpan α)
  | [] =>
    match openStart with
    | some st =>
      if (1 / 5 : α) ≤ prev.time - st then [⟨st, prev.time, prev.time - st⟩] else []
    | none => []
  | c :: rest =>
    let timeDiff := c.time - prev.time
    if timeDiff ≤ 0 then decelScan c openStart rest
    else
      let acceleration := (c.speed - prev.speed) / timeDiff
      match openStart with
      | none =>
        if acceleration < -(1 / 2) then decelScan c (some prev.time) rest
        else decelScan c none rest
      | some st =>
        if -(1 / 2) ≤ acceleration then
          if (1 : α) ≤ c.time - st then
            ⟨st, c.time, c.time - st⟩ :: decelScan c none rest
          else decelScan c none rest
        else decelScan c openStart rest

/-- A deceleration episode before the retention thresholds are applied;
dangling marks the episode that was still open at the last sample. -/
structure RawEpisode (α : Type) where
  startTime : α
  endTime : α
  duration : α
  dangling : Bool
  deriving Repr, DecidableEq

/-- The same scan as decelScan but recording every episode, tagging the
one still open at the end of the lap instead of filtering by duration. -/
def rawDecelScan (prev : Sample α) (openStart : Option α) :
    List (Sample α) → List (RawEpisode α)
  | [] =>
    match openStart with
    | some st => [⟨st, prev.time, prev.time - st, true⟩]
    | none => []
  | c :: rest =>
    let timeDiff := c.time - prev.time
    if timeDiff ≤ 0 then rawDecelScan c openStart rest
    else
      let acceleration := (c.speed - prev.speed) / timeDiff
      match openStart with
      | none =>
        if acceleration < -(1 / 2) then rawDecelScan c (some prev.time) rest
        else rawDecelScan c none rest
      | some st =>
        if -(1 / 2) ≤ acceleration then
          ⟨st, c.time, c.time - st, false⟩ :: rawDecelScan c none rest
        else rawDecelScan c openStart rest

/-- The retained deceleration periods of a lap (step 1 of
findAccelerationPeriods applied to the full sample list). -/
def decelerationPeriods (lapData : List (Sample α)) : List (TimeSpan α) :=
  match lapData with
  | [] => []
  | p :: rest => decelScan p none rest

/-- All deceleration episodes of a lap, before retention filtering. -/
def rawDecelEpisodes (lapData : List (Sample α)) : List (RawEpisode α) :=
  match lapData with
  | [] => []
  | p :: rest => rawDecelScan p none rest

/-- Step 2 of findAccelerationPeriods (script.js lines 851-882): the spans
strictly between retained deceleration periods, plus the lead-in before
the first and the tail after the last, kept only when their duration is
positive. -/
def sectorsBetween (start lastTime : α) : List (TimeSpan α) → List (TimeSpan α)
  | [] =>
    if 0 < lastTime - start then [⟨start, lastTime, lastTime - start⟩] else []
  | d :: rest =>
    let dur := d.startTime - start
    if 0 < dur then ⟨start, d.startTime, dur⟩ :: sectorsBetween d.endTime lastTime rest
    else sectorsBetween d.endTime lastTime rest

/-- Step 3 of findAccelerationPeriods (script.js lines 884-912): a sector
shorter than 5.0 s is merged into its successor, or, when it is the last
sector, into its predecessor; a lone short sector is kept.  The
accumulator holds already-emitted sectors in reverse order. -/
def mergeSectors (acc : List (TimeSpan α)) : List (TimeSpan α) → List (TimeSpan α)
  | [] => acc.reverse
  | [s] =>
    if s.duration < 5 then
      match acc with
      | prev :: accRest =>
        (⟨prev.startTime, s.endTime, s.endTime - prev.startTime⟩ :: accRest).reverse
      | [] => [s]
    else (s :: acc).reverse
  | s :: s2 :: rest =>
    if s.duration < 5 then
      mergeSectors acc (⟨s.startTime, s2.endTime, s2.endTime - s.startTime⟩ :: rest)
    else mergeSectors (s :: acc) (s2 :: rest)
termination_by l => l.length

/-- The acceleration-period objects of step 4 of findAccelerationPeriods
(script.js lines 914-924), with the compatibility fields the source fills
with placeholder values. -/
structure AccelPeriod (α : Type) where
  startTime : α
  endTime : α
  duration : α
  maxSpeed : α
  maxSpeedTime : α
  speedIncrease : α
  deriving Repr, DecidableEq

/-- findAccelerationPeriods (script.js lines 800-927). -/
def findAccelerationPeriods (lapData : List (Sample α)) : List (AccelPeriod α) :=
  if lapData.length < 2 then []
  else
    match lapData with
    | [] => []
    | p :: rest =>
      let decels := decelScan p none rest
      let lastTime := ((p :: rest).getLast (List.cons_ne_nil p rest)).time
      let sectors := sectorsBetween p.time lastTime decels
      (mergeSectors [] sectors).map
        (fun s => ⟨s.startTime, s.endTime, s.duration, 0, s.endTime, 0⟩)

/-- An all-zero sample, used as the never-read default of list accesses
whose indices the source guarantees to be in range. -/
def defaultSample : Sample α := ⟨0, 0, 0, 0, 0, 0, 0, 0⟩

/-- The early-exit closest-sample search of createSectorBorders (script.js
lines 947-959): scan forward while the absolute time difference strictly
decreases, stop at the first non-improving sample.  Arguments of the aux
scan: remaining samples, index of the head, current minimum difference,
current best index. -/
def closestScanAux (target : α) : List (Sample α) → Nat → α → Nat → Nat
  | [], _, _, bestIdx => bestIdx
  | p :: rest, i, minDiff, bestIdx =>
    if |p.time - target| < minDiff then closestScanAux target rest (i + 1) |p.time - target| i
    else bestIdx

/-- Index of the sample the early-exit search selects for a target time. -/
def closestIndexTo (lapData : List (Sample α)) (target : α) : Nat :=
  match lapData with
  | [] => 0
  | p0 :: rest => closestScanAux target rest 1 |p0.time - target| 0

/-- createPerpendicularLine (script.js lines 974-1048): derive a
trajectory direction from the samples 5 steps before and after the anchor,
falling back to the immediate neighbours and then to the reported heading;
correct the longitude component by the cosine of the latitude, normalize,
rotate 90 degrees, scale to 4e-5 degrees and undo the cosine correction on
the endpoints.  List accesses are in range whenever their branch is taken;
the defaults are never read. -/
def createPerpendicularLine (ops : RealOps α) (centerPoint : Sample α)
    (lapData : List (Sample α)) (centerIndex : Nat) : Border α :=
  let lookAhead := min 5 (lapData.length - centerIndex - 1)
  let lookBehind := min 5 centerIndex
  let trajectoryVector : α × α :=
    if 0 < lookAhead ∧ 0 < lookBehind then
      let beforePoint := lapData.getD (centerIndex - lookBehind) defaultSample
      let afterPoint := lapData.getD (centerIndex + lookAhead) defaultSample
      (afterPoint.lat - beforePoint.lat, afterPoint.lon - beforePoint.lon)
    else if 0 < centerIndex ∧ centerIndex < lapData.length - 1 then
      let beforePoint := lapData.getD (centerIndex - 1) defaultSample
      let afterPoint := lapData.getD (centerIndex + 1) defaultSample
      (afterPoint.lat - beforePoint.lat, afterPoint.lon - beforePoint.lon)
    else
      let headingRad := centerPoint.heading * ops.pi / 180
      (ops.cos headingRad, ops.sin headingRad)
  let latRad := centerPoint.lat * ops.pi / 180
  let cosLat := ops.cos latRad
  let corrected0 : α × α := (trajectoryVector.1, trajectoryVector.2 * cosLat)
  let trajectoryLength :=
    ops.sqrt (corrected0.1 * corrected0.1 + corrected0.2 * corrected0.2)
  let corrected : α × α :=
    if 0 < trajectoryLength then
      (corrected0.1 / trajectoryLength, corrected0.2 / trajectoryLength)
    else corrected0
  let perpVector : α × α := (-corrected.2, corrected.1)
  let lineLength : α := 4 / 10 ^ 5
  let perpLat := perpVector.1 * lineLength
  let perpLon := perpVector.2 * lineLength / cosLat
  ⟨centerPoint.time, centerPoint.lat, centerPoint.lon,
   trajectoryVector.1, trajectoryVector.2, perpVector.1, perpVector.2,
   centerPoint.lat - perpLat, centerPoint.lon - perpLon,
   centerPoint.lat + perpLat, centerPoint.lon + perpLon⟩

/-- createSectorBorders (script.js lines 929-972): for each acceleration
period, target a border 0.2 s before the period ends, skip it when that
would leave less than 2.0 s to the lap's final sample, otherwise anchor a
perpendicular gate at the sample closest to the target time; finally sort
the gates by time (Array.prototype.sort with comparator a.time - b.time,
modelled by the stable mergeSort). -/
def createSectorBorders (ops : RealOps α) (lapData : List (Sample α))
    (accelerationPeriods : List (AccelPeriod α)) : List (Border α) :=
  let lapEndTime := (lapData.getLastD defaultSample).time
  let borders := accelerationPeriods.filterMap (fun period =>
    let borderTime := period.endTime - 1 / 5
    let timeToLapEnd := lapEndTime - borderTime
    if timeToLapEnd < 2 then none
    else
      let closestIndex := closestIndexTo lapData borderTime
      let borderPoint := lapData.getD closestIndex defaultSample
      some (createPerpendicularLine ops borderPoint lapData closestIndex))
  borders.mergeSort (fun a b => decide (a.time ≤ b.time))

/-! ## Best-lap delta engine -/

/-- findCorrespondingTimeInBestLap (README lines 2486-2508): bail out on a
zero latitude or longitude (JavaScript falsiness) or an empty reference
lap; find the first reference sample within 1.0 s of the time-aligned
progress, build a perpendicular gate through the current point anchored
there, and return the reference trajectory's crossing time of that gate. -/
def findCorrespondingTimeInBestLap (ops : RealOps α)
    (bestLapData : List (Sample α)) (bestLapStartTime : α)
    (currentPoint : Sample α) (currentLapProgress : α) : Option α :=
  if currentPoint.lat = 0 ∨ currentPoint.lon = 0 ∨ bestLapData.length = 0 then none
  else
    match bestLapData.findIdx? (fun point =>
        decide (|point.time - (bestLapStartTime + currentLapProgress)| < 1)) with
    | none => none
    | some i =>
      let line := createPerpendicularLine ops currentPoint bestLapData
        (min i (bestLapData.length - 1))
      some (findBorderCrossing bestLapData line)

/-- The reference-lap branch of calculateDiffToBestLap (README lines
2375-2389): every sample within the reference lap's time range gets diff
0. -/
def bestLapPass (lapStartTime lapEndTime : α) (telemetryData : List (Sample α))
    (diffs : List (Option α)) : List (Option α) :=
  (telemetryData.zip diffs).map (fun pd =>
    if lapStartTime ≤ pd.1.time ∧ pd.1.time ≤ lapEndTime then some 0 else pd.2)

/-- One sample's processing inside calculateLapDiffToBest (README lines
2414-2435): look up the spatially corresponding reference time; when
found, record progress minus reference progress at the first telemetry
index whose time lies within 1 ms of the sample's time. -/
def diffStep (ops : RealOps α) (bestLapData : List (Sample α))
    (bestLapStartTime : α) (telemetryData : List (Sample α)) (lapStartTime : α)
    (ds : List (Option α)) (currentPoint : Sample α) : List (Option α) :=
  let currentLapProgress := currentPoint.time - lapStartTime
  match findCorrespondingTimeInBestLap ops bestLapData bestLapStartTime
      currentPoint currentLapProgress with
  | none => ds
  | some correspondingTime =>
    let diff := currentLapProgress - (correspondingTime - bestLapStartTime)
    match telemetryData.findIdx? (fun point =>
        decide (|point.time - currentPoint.time| < 1 / 1000)) with
    | none => ds
    | some telemetryIndex => ds.set telemetryIndex (some diff)

/-- calculateLapDiffToBest (README lines 2398-2437): filter the lap's
samples, bail out when the lap or the reference lap has no data, then
process each sample in order. -/
def diffPass (ops : RealOps α) (bestLapData : List (Sample α))
    (bestLapStartTime : α) (telemetryData : List (Sample α))
    (lapStartTime lapEndTime : α) (diffs : List (Option α)) : List (Option α) :=
  let currentLapData := telemetryData.filter
    (fun p => lapStartTime ≤ p.time ∧ p.time ≤ lapEndTime)
  if currentLapData.length = 0 ∨ bestLapData.length = 0 then diffs
  else
    currentLapData.foldl
      (diffStep ops bestLapData bestLapStartTime telemetryData lapStartTime) diffs

/-- One lap's pass of the main loop of calculateDiffToBestLap (README
lines 2374-2393): the reference lap zeroes its own range, every other lap
runs the correspondence pass. -/
def lapPass (ops : RealOps α) (lapTimes lapStartTimes : List α)
    (bestLapIndex : Nat) (bestLapData : List (Sample α)) (bestLapStartTime : α)
    (telemetryData : List (Sample α)) (diffs : List (Option α))
    (lapIndex : Nat) : List (Option α) :=
  let lapStartTime := lapStartTimes.getD lapIndex 0
  let lapEndTime := lapEndTimeOf lapTimes lapStartTimes lapIndex
  if lapIndex = bestLapIndex then
    bestLapPass lapStartTime lapEndTime telemetryData diffs
  else
    diffPass ops bestLapData bestLapStartTime telemetryData
      lapStartTime lapEndTime diffs

/-- calculateDiffToBestLap (README lines 2345-2396): pick the reference
lap, then process every lap in index order; none models a null diff.  The
early returns of the source leave the diff array untouched, modelled as
the all-null array of a fresh computation. -/
def calculateDiffToBestLap (ops : RealOps α) (lapTimes lapStartTimes : List α)
    (telemetryData : List (Sample α)) : List (Option α) :=
  if lapTimes.length = 0 ∨ telemetryData.length = 0 then
    List.replicate telemetryData.length none
  else
    match findBestLapIndex lapTimes with
    | Int.negSucc _ => List.replicate telemetryData.length none
    | Int.ofNat bestLapIndex =>
      let bestLapStartTime := lapStartTimes.getD bestLapIndex 0
      let bestLapEndTime := lapEndTimeOf lapTimes lapStartTimes bestLapIndex
      let bestLapData := telemetryData.filter
        (fun p => bestLapStartTime ≤ p.time ∧ p.time ≤ bestLapEndTime)
      (List.range lapTimes.length).foldl
        (lapPass ops lapTimes lapStartTimes bestLapIndex bestLapData
          bestLapStartTime telemetryData)
        (List.replicate telemetryData.length none)

/-! ## Concrete instances used by witnesses and counterexamples -/

/-- A sample carrying only a time, a speed and a fixed position, for
instances where the remaining channels are irrelevant. -/
def tsSample (t s : ℚ) : Sample ℚ :=
  ⟨t, s, 0, 0, 0, 1, 1, 0⟩

/-- A sample on a west-to-east straight: constant speed, latitude 0,
moving in longitude. -/
def straightSample (t lon : ℚ) : Sample ℚ :=
  ⟨t, 50, 0, 0, 0, 0, lon, 0⟩

/-- A gate across the straight at longitude 1: latitude from -1 to 1. -/
def gateAtLon1 : Border ℚ :=
  ⟨0, 0, 1, 0, 0, 0, 0, -1, 1, 1, 1⟩

/-- A gate across the straight at longitude 3. -/
def gateAtLon3 : Border ℚ :=
  ⟨0, 0, 3, 0, 0, 0, 0, -1, 3, 1, 3⟩

/-- Four samples driving the straight from longitude 0 to 10 over a
10-second lap, crossing gateAtLon1 at time 1 and gateAtLon3 at time 3. -/
def straightLapData : List (Sample ℚ) :=
  [straightSample 0 0, straightSample 2 2, straightSample 4 4, straightSample 10 10]

/-- Reference lap for the gate-placement counterexample: constant speed
100 until t = 9, braking to 70 between t = 9 and t = 12 (one retained
deceleration episode of duration 4 ending at t = 13), then constant speed
70 until the lap end at t = 30. -/
noncomputable def decelLapData : List (Sample ℝ) :=
  [⟨0, 100, 0, 0, 0, 1, 1, 0⟩, ⟨9, 100, 0, 0, 0, 1, 1, 0⟩,
   ⟨12, 70, 0, 0, 0, 1, 1, 0⟩, ⟨13, 70, 0, 0, 0, 1, 1, 0⟩,
   ⟨30, 70, 0, 0, 0, 1, 1, 0⟩]

/-- Lap times for the diff counterexample: out lap, reference lap (index
1, the minimum among indices at least 1), one more lap. -/
noncomputable def diffLapTimes : List ℝ := [10, 10, 12]

/-- Telemetry for the diff counterexample: one sample inside the
reference lap at t = 10.5 slightly south of latitude 1, and one sample at
t = 20 at latitude 1 exactly, on the shared boundary between the
reference lap (range 10 to 20) and lap 2 (range 20 to 32). -/
noncomputable def diffTelemetry : List (Sample ℝ) :=
  [⟨21 / 2, 0, 0, 0, 0, 49999 / 50000, 1, 0⟩,
   ⟨20, 0, 0, 0, 0, 1, 1, 0⟩]

/-- Half-width, in degrees of longitude, of the perpendicular gate the
diff engine constructs at the boundary sample of diffTelemetry: the fixed
4e-5 degree length divided by the cosine-of-latitude correction at
latitude 1. -/
noncomputable def gateHalfWidth : ℝ := 4 / 10 ^ 5 / Real.cos (1 * Real.pi / 180)

/-- The perpendicular gate the diff engine constructs at the boundary
sample of diffTelemetry. -/
noncomputable def boundaryGate : Border ℝ :=
  ⟨20, 1, 1, 1, 0, 0, 1, 1, 1 - gateHalfWidth, 1, 1 + gateHalfWidth⟩

/-- Column indices of a header that resolves Time, GPS Speed and a
GPS Heading column at position 5 (so maxIndex is 5). -/
def colsWithHeading : ColumnIdx :=
  ⟨0, 1, -1, -1, -1, -1, -1, 5⟩

/-- A CSV whose header line passes the substring-based header detection
(it contains both quoted tokens) but whose first field is the literal
characters x quote Time quote y, which parseCsvLine strips to xTimey, so
the Time column cannot be resolved even though GPS Speed can. -/
def trickyCsv : String :=
  "x\"Time\"y,\"GPS Speed\"\nunits\n1.0,2.0"

/-! ## Theorems -/

/-- C9: for any value x and any fixed non-sentinel sync offset, converting
a video time to telemetry time (query operation) and back (jump-to-lap
start) is the identity. -/
theorem c9_sync_round_trip (syncOffset x : ℚ) (_h : syncOffset ≠ 0) :
    videoTimeForTelemetry syncOffset (telemetryTimeForVideo syncOffset x) = x := by
  unfold videoTimeForTelemetry telemetryTimeForVideo
  ring

/-- Witness for c9_sync_round_trip at offset 1 and x = 5. -/
theorem c9_sync_round_trip_witness :
    (1 : ℚ) ≠ 0 ∧ videoTimeForTelemetry (1 : ℚ) (telemetryTimeForVideo 1 5) = 5 :=
  ⟨one_ne_zero, c9_sync_round_trip 1 5 one_ne_zero⟩

/-- The filtered scan and the raw tagged scan agree: an episode closed by
the scan survives exactly when it lasts at least 1.0 s, the dangling
episode exactly when it lasts at least 0.2 s. -/
theorem decelScan_eq_filter_raw (l : List (Sample α)) :
    ∀ (prev : Sample α) (openStart : Option α),
    decelScan prev openStart l =
      ((rawDecelScan prev openStart l).filter (fun e =>
        if e.dangling then decide ((1 / 5 : α) ≤ e.duration)
        else decide ((1 : α) ≤ e.duration))).map
        (fun e => ⟨e.startTime, e.endTime, e.duration⟩) := by
  induction l with
  | nil =>
    intro prev openStart
    cases openStart with
    | none => rfl
    | some st =>
      by_cases hd : (5 : α)⁻¹ ≤ prev.time - st <;>
        simp [decelScan, rawDecelScan, List.filter_cons, hd]
  | cons c rest ih =>
    intro prev openStart
    cases openStart with
    | none =>
      by_cases ht : c.time - prev.time ≤ 0
      · simp only [decelScan, rawDecelScan, if_pos ht]
        exact ih c none
      · by_cases ha : (c.speed - prev.speed) / (c.time - prev.time) < -(1 / 2)
        · simp only [decelScan, rawDecelScan, if_neg ht, if_pos ha]
          exact ih c (some prev.time)
        · simp only [decelScan, rawDecelScan, if_neg ht, if_neg ha]
          exact ih c none
    | some st =>
      by_cases ht : c.time - prev.time ≤ 0
      · simp only [decelScan, rawDecelScan, if_pos ht]
        exact ih c (some st)
      · by_cases ha : -(1 / 2 : α) ≤ (c.speed - prev.speed) / (c.time - prev.time)
        · by_cases hd : (1 : α) ≤ c.time - st
          · simp only [decelScan, rawDecelScan, if_neg ht, if_pos ha, if_pos hd,
              List.filter_cons]
            simp [hd, ih c none]
          · simp only [decelScan, rawDecelScan, if_neg ht, if_pos ha, if_neg hd,
              List.filter_cons]
            simp [hd, ih c none]
        · simp only [decelScan, rawDecelScan, if_neg ht, if_neg ha]
          exact ih c (some st)

/-- C7: deceleration episodes open below acceleration -0.5 and close at
-0.5 or above (the common scan of decelScan and rawDecelScan); a closed
episode is retained if and only if its duration is at least 1.0 s, while
the episode still open at the lap's last sample is retained at the looser
0.2 s threshold. -/
theorem c7_decel_retention (lapData : List (Sample α)) :
    decelerationPeriods lapData =
      ((rawDecelEpisodes lapData).filter (fun e =>
        if e.dangling then decide ((1 / 5 : α) ≤ e.duration)
        else decide ((1 : α) ≤ e.duration))).map
        (fun e => ⟨e.startTime, e.endTime, e.duration⟩) := by
  cases lapData with
  | nil => rfl
  | cons p rest => exact decelScan_eq_filter_raw rest p none

/-- C10: a data row yields a sample only if its parsed field count
strictly exceeds the maximum resolved column index over all eight columns;
any row with fewer fields is dropped regardless of its content. -/
theorem c10_field_count_gate (cols : ColumnIdx) (line : String) :
    (((parseCsvLine (jsTrim line)).length : Int) ≤ maxIndex cols →
      (parseDataRow cols line : Option (Sample ℚ)) = none) ∧
    (∀ s : Sample ℚ, parseDataRow cols line = some s →
      maxIndex cols < ((parseCsvLine (jsTrim line)).length : Int)) := by
  constructor
  · intro h
    simp only [parseDataRow]
    split
    · rfl
    · rw [if_neg (not_lt.mpr h)]
  · intro s hs
    by_contra hcon
    push_neg at hcon
    simp only [parseDataRow] at hs
    split at hs
    · exact Option.noConfusion hs
    · rw [if_neg (not_lt.mpr hcon)] at hs
      exact Option.noConfusion hs

/-- Witness for c10_field_count_gate: a row whose time and speed fields
are valid numerics but which has only 2 fields while the header resolves
a column at index 5 produces no sample. -/
theorem c10_field_count_gate_witness :
    ((parseCsvLine (jsTrim "1.0,2.0")).length : Int) ≤ maxIndex colsWithHeading ∧
    (jsParseFloat "1.0" : Option ℚ) = some 1 ∧
    (jsParseFloat "2.0" : Option ℚ) = some 2 ∧
    (parseDataRow colsWithHeading "1.0,2.0" : Option (Sample ℚ)) = none := by
  have hs1 : signSplit ("1.0").toList = (false, ['1', '.', '0']) := by decide
  have hs2 : signSplit ("2.0").toList = (false, ['2', '.', '0']) := by decide
  have ht1 : takeDigits ['1', '.', '0'] = (1, 1, ['.', '0']) := by decide
  have ht2 : takeDigits ['2', '.', '0'] = (2, 1, ['.', '0']) := by decide
  have hf : fracDigits ['.', '0'] = (0, 1) := by decide
  refine ⟨by decide, ?_, ?_, (c10_field_count_gate colsWithHeading "1.0,2.0").1 (by decide)⟩
  · simp only [jsParseFloat, hs1, ht1, hf]
    norm_num
  · simp only [jsParseFloat, hs2, ht2, hf]
    norm_num

/-- The strict-improvement scan either keeps its incoming best index, in
which case no scanned time beats the incoming best time, or lands on the
earliest scanned index achieving the minimum scanned time, which beats the
incoming best time. -/
theorem bestScanAux_spec (l : List α) :
    ∀ (i bi : Nat) (bt : α),
    (bestScanAux l i bi bt = bi ∧ ∀ j, j < l.length → bt ≤ l.getD j 0) ∨
    (∃ j, j < l.length ∧ bestScanAux l i bi bt = i + j ∧ l.getD j 0 < bt ∧
      (∀ j2, j2 < l.length → l.getD j 0 ≤ l.getD j2 0) ∧
      (∀ j2, j2 < j → l.getD j 0 < l.getD j2 0)) := by
  induction l with
  | nil =>
    intro i bi bt
    left
    exact ⟨rfl, fun j hj => absurd hj (by simp)⟩
  | cons t rest ih =>
    intro i bi bt
    by_cases h : t < bt
    · right
      rcases ih (i + 1) i t with ⟨heq, hall⟩ | ⟨j, hj, heq, hlt, hmin, hstrict⟩
      · refine ⟨0, by simp, ?_, ?_, ?_, ?_⟩
        · simpa [bestScanAux, h] using heq
        · simpa using h
        · intro j2 hj2
          cases j2 with
          | zero => simp
          | succ j3 => simpa using hall j3 (by simpa using hj2)
        · intro j2 hj2
          exact absurd hj2 (Nat.not_lt_zero j2)
      · refine ⟨j + 1, by simpa using hj, ?_, ?_, ?_, ?_⟩
        · simp only [bestScanAux, if_pos h]
          rw [heq]
          omega
        · simpa using lt_trans hlt h
        · intro j2 hj2
          cases j2 with
          | zero => simpa using le_of_lt hlt
          | succ j3 => simpa using hmin j3 (by simpa using hj2)
        · intro j2 hj2
          cases j2 with
          | zero => simpa using hlt
          | succ j3 => simpa using hstrict j3 (by omega)
    · rcases ih (i + 1) bi bt with ⟨heq, hall⟩ | ⟨j, hj, heq, hlt, hmin, hstrict⟩
      · left
        refine ⟨by simpa [bestScanAux, h] using heq, ?_⟩
        intro j2 hj2
        cases j2 with
        | zero => simpa using not_lt.mp h
        | succ j3 => simpa using hall j3 (by simpa using hj2)
      · right
        refine ⟨j + 1, by simpa using hj, ?_, ?_, ?_, ?_⟩
        · simp only [bestScanAux, if_neg h]
          rw [heq]
          omega
        · simpa using hlt
        · intro j2 hj2
          cases j2 with
          | zero => simpa using le_of_lt (lt_of_lt_of_le hlt (not_lt.mp h))
          | succ j3 => simpa using hmin j3 (by simpa using hj2)
        · intro j2 hj2
          cases j2 with
          | zero => simpa using lt_of_lt_of_le hlt (not_lt.mp h)
          | succ j3 => simpa using hstrict j3 (by omega)

/-- C5: with more than one lap, the out lap (index 0) is excluded and the
reference lap is the lap of minimum lap time among indices at least 1,
the lowest index winning ties; with exactly one lap, that lap is its own
reference; and for the lap times 10.0, 62.345, 61.998, 63.102 the selected
index is 2. -/
theorem c5_best_lap_selection :
    (∀ lapTimes : List ℚ, 1 < lapTimes.length →
      ∃ k : Nat, findBestLapIndex lapTimes = (k : Int) ∧ 1 ≤ k ∧ k < lapTimes.length ∧
        (∀ i, 1 ≤ i → i < lapTimes.length → lapTimes.getD k 0 ≤ lapTimes.getD i 0) ∧
        (∀ i, 1 ≤ i → i < k → lapTimes.getD k 0 < lapTimes.getD i 0)) ∧
    (∀ t : ℚ, findBestLapIndex [t] = 0) ∧
    findBestLapIndex ([10, 62.345, 61.998, 63.102] : List ℚ) = 2 := by
  refine ⟨?_, fun t => rfl, ?_⟩
  · intro lapTimes hlen
    match lapTimes with
    | t0 :: t1 :: rest =>
      rcases bestScanAux_spec rest 2 1 t1 with ⟨heq, hall⟩ | ⟨j, hj, heq, hlt, hmin, hstrict⟩
      · refine ⟨1, ?_, le_refl 1, by simp, ?_, ?_⟩
        · simp [findBestLapIndex, heq]
        · intro i h1 h2
          match i, h1 with
          | 1, _ => simp
          | (j2 + 2), _ =>
            simpa using hall j2 (by simpa using h2)
        · intro i h1 h2
          omega
      · refine ⟨j + 2, ?_, by omega, by simpa using hj, ?_, ?_⟩
        · simp only [findBestLapIndex, heq]
          norm_num
          omega
        · intro i h1 h2
          match i, h1 with
          | 1, _ => simpa using le_of_lt hlt
          | (j2 + 2), _ =>
            simpa using hmin j2 (by simpa using h2)
        · intro i h1 h2
          match i, h1 with
          | 1, _ => simpa using hlt
          | (j2 + 2), _ =>
            simpa using hstrict j2 (by omega)
  · show findBestLapIndex ([10, 62.345, 61.998, 63.102] : List ℚ) = 2
    have h1 : ¬ ((62.345 : ℚ) < 62.345) := by norm_num
    have h2 : (61.998 : ℚ) < 62.345 := by norm_num
    have h3 : ¬ ((63.102 : ℚ) < 61.998) := by norm_num
    simp [findBestLapIndex, bestScanAux, h2, h3]

/-- Witness for c5_best_lap_selection: the general selection property
applied at the concrete lap-time list of the scenario. -/
theorem c5_best_lap_selection_witness :
    1 < ([10, 62.345, 61.998, 63.102] : List ℚ).length ∧
    ∃ k : Nat,
      findBestLapIndex ([10, 62.345, 61.998, 63.102] : List ℚ) = (k : Int) ∧
      1 ≤ k ∧ k < ([10, 62.345, 61.998, 63.102] : List ℚ).length ∧
      (∀ i, 1 ≤ i → i < ([10, 62.345, 61.998, 63.102] : List ℚ).length →
        ([10, 62.345, 61.998, 63.102] : List ℚ).getD k 0 ≤
          ([10, 62.345, 61.998, 63.102] : List ℚ).getD i 0) ∧
      (∀ i, 1 ≤ i → i < k →
        ([10, 62.345, 61.998, 63.102] : List ℚ).getD k 0 <
          ([10, 62.345, 61.998, 63.102] : List ℚ).getD i 0) :=
  ⟨by norm_num, c5_best_lap_selection.1 [10, 62.345, 61.998, 63.102] (by norm_num)⟩

/-- C8 (amended): the parse fails with the no-header error exactly when no
line passes the header criteria, fails with the column error when the
header is found but either the Time or the GPS Speed column is
unresolvable by name, and otherwise completes with the filtered sample
sequence. -/
theorem c8_parse_failure_modes (csvText : String) :
    (findHeaderIndex (jsSplitNewline csvText) = none →
      (parseCsvData csvText : Except String (List (Sample ℚ))) =
        Except.error "Could not find data header in CSV file") ∧
    (∀ h, findHeaderIndex (jsSplitNewline csvText) = some h →
      ((resolveColumns ((jsSplitNewline csvText).getD h "")).timeIndex = -1 ∨
       (resolveColumns ((jsSplitNewline csvText).getD h "")).speedIndex = -1) →
      (parseCsvData csvText : Except String (List (Sample ℚ))) =
        Except.error "Could not find Time or GPS Speed columns") ∧
    (∀ h, findHeaderIndex (jsSplitNewline csvText) = some h →
      (resolveColumns ((jsSplitNewline csvText).getD h "")).timeIndex ≠ -1 →
      (resolveColumns ((jsSplitNewline csvText).getD h "")).speedIndex ≠ -1 →
      (parseCsvData csvText : Except String (List (Sample ℚ))) =
        Except.ok (((jsSplitNewline csvText).drop (h + 2)).filterMap
          (parseDataRow (resolveColumns ((jsSplitNewline csvText).getD h ""))))) := by
  refine ⟨?_, ?_, ?_⟩
  · intro hnone
    simp only [parseCsvData, hnone]
  · intro h hsome hcol
    simp only [parseCsvData, hsome]
    rw [if_pos hcol]
  · intro h hsome htime hspeed
    simp only [parseCsvData, hsome]
    rw [if_neg (by push_neg; exact ⟨htime, hspeed⟩)]

/-- Witness for c8_parse_failure_modes: a well-formed CSV parses to its
two data samples through the success branch. -/
theorem c8_parse_failure_modes_witness :
    findHeaderIndex (jsSplitNewline "\"Time\",\"GPS Speed\"\nunits\n3,4") = some 0 ∧
    (resolveColumns ((jsSplitNewline "\"Time\",\"GPS Speed\"\nunits\n3,4").getD 0 "")).timeIndex ≠ -1 ∧
    (resolveColumns ((jsSplitNewline "\"Time\",\"GPS Speed\"\nunits\n3,4").getD 0 "")).speedIndex ≠ -1 ∧
    (parseCsvData "\"Time\",\"GPS Speed\"\nunits\n3,4" : Except String (List (Sample ℚ))) =
      Except.ok (((jsSplitNewline "\"Time\",\"GPS Speed\"\nunits\n3,4").drop 2).filterMap
        (parseDataRow (resolveColumns
          ((jsSplitNewline "\"Time\",\"GPS Speed\"\nunits\n3,4").getD 0 "")))) :=
  ⟨by decide, by decide, by decide,
   (c8_parse_failure_modes "\"Time\",\"GPS Speed\"\nunits\n3,4").2.2 0
     (by decide) (by decide) (by decide)⟩

/-- C8 counterexample: a CSV whose header line satisfies the header-row
criteria and resolves the GPS Speed column (so not both required columns
are unresolvable), yet the parse aborts with the column error: the source
throws when either required column is missing, not only when neither can
be resolved. -/
theorem c8_counterexample :
    (parseCsvData trickyCsv : Except String (List (Sample ℚ))) =
      Except.error "Could not find Time or GPS Speed columns" ∧
    findHeaderIndex (jsSplitNewline trickyCsv) = some 0 ∧
    (resolveColumns ((jsSplitNewline trickyCsv).getD 0 "")).speedIndex = 1 ∧
    (resolveColumns ((jsSplitNewline trickyCsv).getD 0 "")).timeIndex = -1 := by
  have h1 : findHeaderIndex (jsSplitNewline trickyCsv) = some 0 := by decide
  have h2 : (resolveColumns ((jsSplitNewline trickyCsv).getD 0 "")).speedIndex = 1 := by decide
  have h3 : (resolveColumns ((jsSplitNewline trickyCsv).getD 0 "")).timeIndex = -1 := by decide
  exact ⟨by simp only [parseCsvData, h1]; rw [if_pos (Or.inl h3)], h1, h2, h3⟩

/-- The cumulative-sum helper produces one start time per lap beyond the
first. -/
theorem lapStartsAux_length (l : List α) : ∀ cum : α,
    (lapStartsAux cum l).length = l.length - 1 := by
  induction l with
  | nil => intro cum; rfl
  | cons a rest ih =>
    intro cum
    cases rest with
    | nil => rfl
    | cons b rest2 => simpa [lapStartsAux] using ih (cum + a)

/-- Lap start times are nonempty and have one entry per lap. -/
theorem calculateLapStartTimes_length (l : List α) (h : l ≠ []) :
    (calculateLapStartTimes l).length = l.length := by
  have := lapStartsAux_length l (0 : α)
  have hl : 1 ≤ l.length := by
    cases l with
    | nil => exact absurd rfl h
    | cons a r => simp
  simp only [calculateLapStartTimes, List.length_cons, this]
  omega

/-- Each lap starts where the previous one started plus the previous lap
time. -/
theorem lapStarts_adjacent (l : List α) : ∀ (cum : α) (i : Nat), i + 1 < l.length →
    (cum :: lapStartsAux cum l).getD (i + 1) 0 =
      (cum :: lapStartsAux cum l).getD i 0 + l.getD i 0 := by
  induction l with
  | nil => intro cum i h; simp at h
  | cons a rest ih =>
    intro cum i h
    cases rest with
    | nil => simp at h
    | cons b rest2 =>
      cases i with
      | zero => simp [lapStartsAux]
      | succ i2 =>
        have h2 := ih (cum + a) i2 (by simpa using h)
        simpa [lapStartsAux] using h2

/-- Under the computed lap start times, a lap ends exactly where it starts
plus its lap time, in both branches of lapEndTimeOf. -/
theorem lapEndTimeOf_eq (lapTimes : List α) (lapIndex : Nat)
    (h : lapIndex < lapTimes.length) :
    lapEndTimeOf lapTimes (calculateLapStartTimes lapTimes) lapIndex =
      (calculateLapStartTimes lapTimes).getD lapIndex 0 + lapTimes.getD lapIndex 0 := by
  have hne : lapTimes ≠ [] := by
    intro hnil
    rw [hnil] at h
    simp at h
  have hlen := calculateLapStartTimes_length lapTimes hne
  unfold lapEndTimeOf
  split
  · rename_i hcase
    have hidx : lapIndex + 1 < lapTimes.length := by omega
    exact lapStarts_adjacent lapTimes 0 lapIndex hidx
  · rfl

/-- If every sample time is bounded above, so is any crossing time the
intersection scan returns: the returned interpolated time is validated to
lie between the two bounding sample times. -/
theorem intersectScan_le (border : Border α) (ub : α) :
    ∀ l : List (Sample α), (∀ p ∈ l, p.time ≤ ub) →
      ∀ c, intersectScan border l = some c → c ≤ ub
  | [] => by intro _ c hc; simp [intersectScan] at hc
  | [p] => by intro _ c hc; simp [intersectScan] at hc
  | p1 :: p2 :: rest => by
    intro hub c hc
    have htail : ∀ p ∈ p2 :: rest, p.time ≤ ub :=
      fun p hp => hub p (List.mem_cons_of_mem p1 hp)
    simp only [intersectScan] at hc
    split at hc
    · split at hc
      · rename_i hval
        cases hc
        exact le_trans hval.2 (hub p2 (by simp))
      · exact intersectScan_le border ub (p2 :: rest) htail c hc
    · exact intersectScan_le border ub (p2 :: rest) htail c hc

/-- The fallback scan only ever returns its incoming best time or the time
of a scanned sample. -/
theorem fallbackScan_le (border : Border α) (ub : α) :
    ∀ (l : List (Sample α)) (bt md : α), bt ≤ ub → (∀ p ∈ l, p.time ≤ ub) →
      fallbackScan border bt md l ≤ ub := by
  intro l
  induction l with
  | nil => intro bt md hbt _; exact hbt
  | cons p rest ih =>
    intro bt md hbt hub
    simp only [fallbackScan]
    split
    · exact ih p.time _ (hub p (by simp)) (fun q hq => hub q (List.mem_cons_of_mem p hq))
    · exact ih bt md hbt (fun q hq => hub q (List.mem_cons_of_mem p hq))

/-- A border-crossing time never exceeds an upper bound on the lap's
sample times. -/
theorem findBorderCrossing_le (lapData : List (Sample α)) (border : Border α)
    (ub : α) (hne : lapData ≠ []) (hub : ∀ p ∈ lapData, p.time ≤ ub) :
    findBorderCrossing lapData border ≤ ub := by
  match lapData with
  | [] => exact absurd rfl hne
  | p0 :: rest =>
    simp only [findBorderCrossing]
    cases hscan : intersectScan border (p0 :: rest) with
    | some c => exact intersectScan_le border ub (p0 :: rest) hub c hscan
    | none => exact fallbackScan_le border ub (p0 :: rest) p0.time _ (hub p0 (by simp)) hub

/-- The sector loop telescopes: the durations it accrues sum to the total
advance of the running boundary, which never moves backwards and never
beyond an upper bound on the crossing times. -/
theorem sectorLoop_spec (lapData : List (Sample α)) (ub : α) :
    ∀ (borders : List (Border α)) (b : α), b ≤ ub →
      (∀ bd ∈ borders, findBorderCrossing lapData bd ≤ ub) →
      (sectorLoop lapData b borders).1.sum = (sectorLoop lapData b borders).2 - b ∧
      b ≤ (sectorLoop lapData b borders).2 ∧ (sectorLoop lapData b borders).2 ≤ ub := by
  intro borders
  induction borders with
  | nil =>
    intro b hb _
    refine ⟨by simp [sectorLoop], le_refl b, hb⟩
  | cons bd rest ih =>
    intro b hb hcr
    have hcb : findBorderCrossing lapData bd ≤ ub := hcr bd (by simp)
    simp only [sectorLoop]
    split
    · rename_i hgt
      obtain ⟨hsum, hle, hub2⟩ :=
        ih (findBorderCrossing lapData bd) hcb
          (fun bd2 h2 => hcr bd2 (List.mem_cons_of_mem bd h2))
      refine ⟨?_, ?_, hub2⟩
      · simp only [List.sum_cons, hsum]
        ring
      · exact le_trans (le_of_lt hgt) hle
    · exact ih b hb (fun bd2 h2 => hcr bd2 (List.mem_cons_of_mem bd h2))

/-- With any lap-start list whose implied lap end exceeds the lap start by
the (nonnegative) lap time, the sector durations sum exactly to the lap
time. -/
theorem calculateLapSectorTimes_sum (lapTimes lapStartTimes : List α)
    (telemetryData : List (Sample α)) (sectorBorders : List (Border α))
    (lapIndex : Nat)
    (hend : lapEndTimeOf lapTimes lapStartTimes lapIndex =
      lapStartTimes.getD lapIndex 0 + lapTimes.getD lapIndex 0)
    (hpos : 0 ≤ lapTimes.getD lapIndex 0) :
    (calculateLapSectorTimes lapTimes lapStartTimes
        telemetryData sectorBorders lapIndex).sum = lapTimes.getD lapIndex 0 := by
  simp only [calculateLapSectorTimes]
  set lapStart := lapStartTimes.getD lapIndex 0 with hls
  set lapEnd := lapEndTimeOf lapTimes lapStartTimes lapIndex with hle
  set lapData := telemetryData.filter (fun point =>
    lapStart ≤ point.time ∧ point.time ≤ lapEnd) with hld
  split
  · simp
  · rename_i hguard
    push_neg at hguard
    have hne : lapData ≠ [] := by
      intro hnil
      exact hguard.1 (by rw [hnil]; rfl)
    have hub : ∀ p ∈ lapData, p.time ≤ lapEnd := by
      intro p hp
      have hmem := List.of_mem_filter hp
      simp only [decide_eq_true_eq] at hmem
      exact hmem.2
    have hstart_le : lapStart ≤ lapEnd := by
      rw [hend]
      linarith
    obtain ⟨hsum, hadv, hub2⟩ := sectorLoop_spec lapData lapEnd sectorBorders lapStart
      hstart_le
      (fun bd _ => findBorderCrossing_le lapData bd lapEnd hne hub)
    split
    · rename_i hlt
      rw [List.sum_append, hsum]
      simp only [List.sum_cons, List.sum_nil]
      rw [hend]
      ring
    · rename_i hnlt
      have hb2 : (sectorLoop lapData lapStart sectorBorders).2 = lapEnd :=
        le_antisymm hub2 (not_lt.mp hnlt)
      rw [hsum, hb2, hend]
      ring

/-- C2: with the computed lap start times and a nonnegative lap time, the
per-lap sector durations sum exactly to the lap time (so in particular
within any tolerance); when the lap has no samples or no gates exist, the
whole lap time is returned as a single sector. -/
theorem c2_sector_times_sum (lapTimes : List ℚ) (telemetryData : List (Sample ℚ))
    (sectorBorders : List (Border ℚ)) (lapIndex : Nat)
    (hidx : lapIndex < lapTimes.length)
    (hpos : 0 ≤ lapTimes.getD lapIndex 0) :
    (calculateLapSectorTimes lapTimes (calculateLapStartTimes lapTimes)
        telemetryData sectorBorders lapIndex).sum = lapTimes.getD lapIndex 0 ∧
    (((telemetryData.filter (fun point =>
          (calculateLapStartTimes lapTimes).getD lapIndex 0 ≤ point.time ∧
          point.time ≤ lapEndTimeOf lapTimes (calculateLapStartTimes lapTimes) lapIndex)).length = 0 ∨
        sectorBorders.length = 0) →
      calculateLapSectorTimes lapTimes (calculateLapStartTimes lapTimes)
        telemetryData sectorBorders lapIndex = [lapTimes.getD lapIndex 0]) := by
  constructor
  · exact calculateLapSectorTimes_sum lapTimes (calculateLapStartTimes lapTimes)
      telemetryData sectorBorders lapIndex (lapEndTimeOf_eq lapTimes lapIndex hidx) hpos
  · intro hcase
    simp only [calculateLapSectorTimes]
    rw [if_pos hcase]

/-- Witness for c2_sector_times_sum: a 10-second lap crossed by the two
straight-line gates gets sector durations 1, 2 and 7, summing to the lap
time. -/
theorem c2_sector_times_sum_witness :
    0 < ([10] : List ℚ).length ∧ (0 : ℚ) ≤ ([10] : List ℚ).getD 0 0 ∧
    (calculateLapSectorTimes ([10] : List ℚ) (calculateLapStartTimes [10])
      straightLapData [gateAtLon1, gateAtLon3] 0).sum = ([10] : List ℚ).getD 0 0 :=
  ⟨by norm_num, by norm_num,
    (c2_sector_times_sum [10] straightLapData [gateAtLon1, gateAtLon3] 0
      (by norm_num) (by norm_num)).1⟩

/-- C4 counterexample: a lap with one sample at its own start time, timed
against two gates, yields a single duration, not three: both crossing
searches fall back to the lone sample's time, which does not advance the
running boundary, so only the final remainder is emitted.  This holds for
every possible gate pair, since any crossing search over this lap returns
the lone sample's time; the two straight-line gates below are one explicit
instance. -/
theorem c4_counterexample :
    ([tsSample 0 50] : List (Sample ℚ)).length = 1 ∧
    ([gateAtLon1, gateAtLon3] : List (Border ℚ)).length = 2 ∧
    calculateLapSectorTimes ([10] : List ℚ) (calculateLapStartTimes [10])
      [tsSample 0 50] [gateAtLon1, gateAtLon3] 0 = [10] ∧
    (calculateLapSectorTimes ([10] : List ℚ) (calculateLapStartTimes [10])
      [tsSample 0 50] [gateAtLon1, gateAtLon3] 0).length ≠ 3 := by
  refine ⟨rfl, rfl, ?_, ?_⟩
  · norm_num [calculateLapSectorTimes, calculateLapStartTimes, lapStartsAux, lapEndTimeOf,
      sectorLoop, findBorderCrossing, intersectScan, fallbackScan, tsSample, List.filter]
  · norm_num [calculateLapSectorTimes, calculateLapStartTimes, lapStartsAux, lapEndTimeOf,
      sectorLoop, findBorderCrossing, intersectScan, fallbackScan, tsSample, List.filter]

/-- C4 (amended): with exactly two gates, a lap with samples gets exactly
3 durations whenever the two crossing times strictly advance from lap
start to strictly before lap end (whether found by intersection or by the
closest-point fallback); the durations are then positive (non-overlapping)
and sum to the lap time.  When the crossing times fail to advance, fewer
durations are returned. -/
theorem c4_two_gates_three_sectors (lapTimes lapStartTimes : List ℚ)
    (telemetryData : List (Sample ℚ)) (g1 g2 : Border ℚ) (lapIndex : Nat)
    (S E c1 c2 : ℚ)
    (hS : S = lapStartTimes.getD lapIndex 0)
    (hE : E = lapEndTimeOf lapTimes lapStartTimes lapIndex)
    (hEeq : E = S + lapTimes.getD lapIndex 0)
    (hc1 : c1 = findBorderCrossing
      (telemetryData.filter (fun p => S ≤ p.time ∧ p.time ≤ E)) g1)
    (hc2 : c2 = findBorderCrossing
      (telemetryData.filter (fun p => S ≤ p.time ∧ p.time ≤ E)) g2)
    (hne : telemetryData.filter (fun p => S ≤ p.time ∧ p.time ≤ E) ≠ [])
    (h1 : S < c1) (h2 : c1 < c2) (h3 : c2 < E) :
    calculateLapSectorTimes lapTimes lapStartTimes telemetryData [g1, g2] lapIndex =
      [c1 - S, c2 - c1, E - c2] ∧
    (0 < c1 - S ∧ 0 < c2 - c1 ∧ 0 < E - c2) ∧
    (c1 - S) + ((c2 - c1) + (E - c2)) = lapTimes.getD lapIndex 0 := by
  subst hS hE hc1 hc2
  refine ⟨?_, ⟨by linarith, by linarith, by linarith⟩, by linarith⟩
  simp only [calculateLapSectorTimes]
  rw [if_neg]
  · simp only [sectorLoop, if_pos h1, if_pos h2]
    rw [if_pos h3]
    simp
  · push_neg
    exact ⟨fun hlen => hne (List.length_eq_zero.mp hlen), by simp⟩

/-- Witness for c4_two_gates_three_sectors: on the straight 10-second lap
the gates are crossed at times 1 and 3, giving sectors 1, 2 and 7. -/
theorem c4_two_gates_three_sectors_witness :
    calculateLapSectorTimes ([10] : List ℚ) (calculateLapStartTimes [10])
      straightLapData [gateAtLon1, gateAtLon3] 0 = [1 - 0, 3 - 1, 10 - 3] ∧
    ((0 : ℚ) < 1 - 0 ∧ (0 : ℚ) < 3 - 1 ∧ (0 : ℚ) < 10 - 3) ∧
    ((1 : ℚ) - 0) + ((3 - 1) + (10 - 3)) = ([10] : List ℚ).getD 0 0 := by
  have hc1 : (1 : ℚ) = findBorderCrossing
      (straightLapData.filter (fun p => (0 : ℚ) ≤ p.time ∧ p.time ≤ 10)) gateAtLon1 := by
    norm_num [findBorderCrossing, intersectScan, straightLapData, straightSample,
      gateAtLon1, lineSegmentIntersection, List.filter]
  have hc2 : (3 : ℚ) = findBorderCrossing
      (straightLapData.filter (fun p => (0 : ℚ) ≤ p.time ∧ p.time ≤ 10)) gateAtLon3 := by
    norm_num [findBorderCrossing, intersectScan, straightLapData, straightSample,
      gateAtLon3, lineSegmentIntersection, List.filter]
  exact c4_two_gates_three_sectors [10] (calculateLapStartTimes [10]) straightLapData
    gateAtLon1 gateAtLon3 0 0 10 1 3
    (by norm_num [calculateLapStartTimes, lapStartsAux])
    (by norm_num [lapEndTimeOf, calculateLapStartTimes, lapStartsAux])
    (by norm_num)
    hc1 hc2
    (by simp [straightLapData, straightSample, List.filter])
    (by norm_num) (by norm_num) (by norm_num)

/-- If no consecutive sample pair intersects the gate, the intersection
scan finds nothing. -/
theorem intersectScan_none (border : Border α) :
    ∀ l : List (Sample α),
      (∀ (k : Nat) (q1 q2 : Sample α), l[k]? = some q1 → l[k + 1]? = some q2 →
        lineSegmentIntersection q1.lon q1.lat q2.lon q2.lat
          border.startLon border.startLat border.endLon border.endLat = none) →
      intersectScan border l = none
  | [] => by intro _; rfl
  | [p] => by intro _; rfl
  | p1 :: p2 :: rest => by
    intro hall
    have h0 := hall 0 p1 p2 (by simp) (by simp)
    simp only [intersectScan, h0]
    exact intersectScan_none border (p2 :: rest)
      (fun k q1 q2 h1 h2 => hall (k + 1) q1 q2 (by simpa using h1) (by simpa using h2))

/-- The fallback scan either keeps its incoming best time, in which case
no scanned sample strictly beats the incoming minimum distance, or lands
on the earliest scanned sample achieving the minimum distance, which
strictly beats the incoming minimum. -/
theorem fallbackScan_spec (border : Border α) :
    ∀ (l : List (Sample α)) (bt md : α),
    (fallbackScan border bt md l = bt ∧
      ∀ (k : Nat) (q : Sample α), l[k]? = some q →
        md ≤ distanceToLineSegmentSq q border) ∨
    (∃ (j : Nat) (p : Sample α), l[j]? = some p ∧
      fallbackScan border bt md l = p.time ∧
      distanceToLineSegmentSq p border < md ∧
      (∀ (k : Nat) (q : Sample α), l[k]? = some q →
        distanceToLineSegmentSq p border ≤ distanceToLineSegmentSq q border) ∧
      (∀ (k : Nat) (q : Sample α), k < j → l[k]? = some q →
        distanceToLineSegmentSq p border < distanceToLineSegmentSq q border)) := by
  intro l
  induction l with
  | nil =>
    intro bt md
    left
    exact ⟨rfl, fun k q hk => by simp at hk⟩
  | cons p0 rest ih =>
    intro bt md
    by_cases h : distanceToLineSegmentSq p0 border < md
    · right
      rcases ih p0.time (distanceToLineSegmentSq p0 border) with
        ⟨heq, hall⟩ | ⟨j, p, hjp, heq, hlt, hmin, hstrict⟩
      · refine ⟨0, p0, by simp, ?_, h, ?_, ?_⟩
        · simpa [fallbackScan, h] using heq
        · intro k q hk
          cases k with
          | zero => simp at hk; rw [← hk]
          | succ k2 => exact hall k2 q (by simpa using hk)
        · intro k q hk _
          exact absurd hk (Nat.not_lt_zero k)
      · refine ⟨j + 1, p, by simpa using hjp, ?_, lt_trans hlt h, ?_, ?_⟩
        · simpa [fallbackScan, h] using heq
        · intro k q hk
          cases k with
          | zero =>
            simp at hk
            rw [← hk]
            exact le_of_lt hlt
          | succ k2 => exact hmin k2 q (by simpa using hk)
        · intro k q hk hkq
          cases k with
          | zero =>
            simp at hkq
            rw [← hkq]
            exact hlt
          | succ k2 => exact hstrict k2 q (by omega) (by simpa using hkq)
    · rcases ih bt md with ⟨heq, hall⟩ | ⟨j, p, hjp, heq, hlt, hmin, hstrict⟩
      · left
        refine ⟨by simpa [fallbackScan, h] using heq, ?_⟩
        intro k q hk
        cases k with
        | zero =>
          simp at hk
          rw [← hk]
          exact not_lt.mp h
        | succ k2 => exact hall k2 q (by simpa using hk)
      · right
        refine ⟨j + 1, p, by simpa using hjp, ?_, hlt, ?_, ?_⟩
        · simpa [fallbackScan, h] using heq
        · intro k q hk
          cases k with
          | zero =>
            simp at hk
            rw [← hk]
            exact le_trans (le_of_lt hlt) (not_lt.mp h)
          | succ k2 => exact hmin k2 q (by simpa using hk)
        · intro k q hk hkq
          cases k with
          | zero =>
            simp at hkq
            rw [← hkq]
            exact lt_of_lt_of_le hlt (not_lt.mp h)
          | succ k2 => exact hstrict k2 q (by omega) (by simpa using hkq)

/-- On a time-sorted lap, the intersection scan returns the interpolated
time of the first intersecting pair: under sortedness the validation that
the interpolated time lies between the bounding sample times always
passes. -/
theorem intersectScan_first (border : Border α) :
    ∀ (l : List (Sample α)), l.Pairwise (fun a b => a.time ≤ b.time) →
    ∀ (i : Nat) (p1 p2 : Sample α) (r : IntersectionResult α),
      l[i]? = some p1 → l[i + 1]? = some p2 →
      (∀ (k : Nat) (q1 q2 : Sample α), k < i → l[k]? = some q1 → l[k + 1]? = some q2 →
        lineSegmentIntersection q1.lon q1.lat q2.lon q2.lat
          border.startLon border.startLat border.endLon border.endLat = none) →
      lineSegmentIntersection p1.lon p1.lat p2.lon p2.lat
        border.startLon border.startLat border.endLon border.endLat = some r →
      intersectScan border l = some (p1.time + max 0 (min 1 r.t) * (p2.time - p1.time))
  | [] => by intro _ i p1 p2 r h1 _ _ _; simp at h1
  | [p] => by
    intro _ i p1 p2 r h1 h2 _ _
    cases i with
    | zero => simp at h2
    | succ i2 => simp at h1
  | a :: b :: rest => by
    intro hsorted i p1 p2 r h1 h2 hbefore hlsi
    cases i with
    | zero =>
      have h1b : a = p1 := by simpa using h1
      have h2b : b = p2 := by simpa using h2
      rw [← h1b, ← h2b] at hlsi ⊢
      have hab : a.time ≤ b.time := (List.pairwise_cons.mp hsorted).1 b (by simp)
      have ht0 : (0 : α) ≤ max 0 (min 1 r.t) := le_max_left 0 _
      have ht1 : max 0 (min 1 r.t) ≤ 1 := max_le (by linarith) (min_le_left 1 r.t)
      have hcond : a.time ≤ a.time + max 0 (min 1 r.t) * (b.time - a.time) ∧
          a.time + max 0 (min 1 r.t) * (b.time - a.time) ≤ b.time := by
        constructor
        · nlinarith [sub_nonneg.mpr hab]
        · nlinarith [sub_nonneg.mpr hab]
      simp only [intersectScan, hlsi, if_pos hcond]
    | succ i2 =>
      have h0 := hbefore 0 a b (Nat.succ_pos i2) (by simp) (by simp)
      simp only [intersectScan, h0]
      exact intersectScan_first border (b :: rest) (List.Pairwise.sublist (by simp) hsorted)
        i2 p1 p2 r (by simpa using h1) (by simpa using h2)
        (fun k q1 q2 hk hq1 hq2 =>
          hbefore (k + 1) q1 q2 (by omega) (by simpa using hq1) (by simpa using hq2))
        hlsi

/-- C6: on a sorted nonempty lap, findBorderCrossing returns, at the first
consecutive pair whose segment intersects the gate segment with both
parameters in range (near-parallel pairs rejected inside
lineSegmentIntersection), the time interpolated by the trajectory
parameter, strictly between the bounding sample times when the
intersection is interior; and when no pair intersects it returns the
timestamp of the earliest sample of minimum clamped point-to-segment
distance, so a value is always returned. -/
theorem c6_border_crossing (lapData : List (Sample ℚ)) (border : Border ℚ)
    (hsorted : lapData.Pairwise (fun a b => a.time ≤ b.time)) (hne : lapData ≠ []) :
    (∀ (i : Nat) (p1 p2 : Sample ℚ) (r : IntersectionResult ℚ),
      lapData[i]? = some p1 → lapData[i + 1]? = some p2 →
      (∀ (k : Nat) (q1 q2 : Sample ℚ), k < i → lapData[k]? = some q1 →
        lapData[k + 1]? = some q2 →
        lineSegmentIntersection q1.lon q1.lat q2.lon q2.lat
          border.startLon border.startLat border.endLon border.endLat = none) →
      lineSegmentIntersection p1.lon p1.lat p2.lon p2.lat
        border.startLon border.startLat border.endLon border.endLat = some r →
      findBorderCrossing lapData border =
        p1.time + max 0 (min 1 r.t) * (p2.time - p1.time) ∧
      (0 < r.t → r.t < 1 → p1.time < p2.time →
        p1.time < findBorderCrossing lapData border ∧
        findBorderCrossing lapData border < p2.time)) ∧
    ((∀ (k : Nat) (q1 q2 : Sample ℚ), lapData[k]? = some q1 →
        lapData[k + 1]? = some q2 →
        lineSegmentIntersection q1.lon q1.lat q2.lon q2.lat
          border.startLon border.startLat border.endLon border.endLat = none) →
      ∃ (j : Nat) (p : Sample ℚ), lapData[j]? = some p ∧
        findBorderCrossing lapData border = p.time ∧
        (∀ (k : Nat) (q : Sample ℚ), lapData[k]? = some q →
          distanceToLineSegmentSq p border ≤ distanceToLineSegmentSq q border) ∧
        (∀ (k : Nat) (q : Sample ℚ), k < j → lapData[k]? = some q →
          distanceToLineSegmentSq p border < distanceToLineSegmentSq q border)) := by
  match lapData, hne with
  | p0 :: rest, _ =>
    constructor
    · intro i p1 p2 r h1 h2 hbefore hlsi
      have hscan := intersectScan_first border (p0 :: rest) hsorted i p1 p2 r h1 h2 hbefore hlsi
      have hres : findBorderCrossing (p0 :: rest) border =
          p1.time + max 0 (min 1 r.t) * (p2.time - p1.time) := by
        simp only [findBorderCrossing, hscan]
      refine ⟨hres, ?_⟩
      intro hrt0 hrt1 htlt
      have hclamp : max 0 (min 1 r.t) = r.t := by
        rw [min_eq_right (le_of_lt hrt1), max_eq_right (le_of_lt hrt0)]
      rw [hres, hclamp]
      constructor
      · nlinarith
      · nlinarith
    · intro hall
      have hnone := intersectScan_none border (p0 :: rest) hall
      rcases fallbackScan_spec border (p0 :: rest) p0.time
          (distanceToLineSegmentSq p0 border) with
        ⟨heq, hmin⟩ | ⟨j, p, hjp, heq, _, hmin, hstrict⟩
      · refine ⟨0, p0, by simp, ?_, ?_, ?_⟩
        · simp only [findBorderCrossing, hnone]
          exact heq
        · exact fun k q hk => hmin k q hk
        · intro k q hk _
          exact absurd hk (Nat.not_lt_zero k)
      · refine ⟨j, p, hjp, ?_, hmin, hstrict⟩
        simp only [findBorderCrossing, hnone]
        exact heq

/-- Witness for c6_border_crossing: the straight lap crosses gateAtLon1
on its first segment with intersection parameter one half, giving the
interpolated time 1, strictly between the bounding samples at times 0 and
2. -/
theorem c6_border_crossing_witness :
    findBorderCrossing straightLapData gateAtLon1 = 1 ∧
    straightSample 0 0 = straightLapData.getD 0 defaultSample ∧
    (0 : ℚ) < 1 ∧ (1 : ℚ) < 2 := by
  have hsorted : straightLapData.Pairwise (fun a b => a.time ≤ b.time) := by
    norm_num [straightLapData, straightSample, List.pairwise_cons]
  have hne : straightLapData ≠ [] := by simp [straightLapData]
  have hlsi : lineSegmentIntersection (straightSample 0 0).lon (straightSample 0 0).lat
      (straightSample 2 2).lon (straightSample 2 2).lat
      gateAtLon1.startLon gateAtLon1.startLat gateAtLon1.endLon gateAtLon1.endLat =
      some ⟨1, 0, 1 / 2⟩ := by
    norm_num [lineSegmentIntersection, straightSample, gateAtLon1]
  have happ := (c6_border_crossing straightLapData gateAtLon1 hsorted hne).1
    0 (straightSample 0 0) (straightSample 2 2) ⟨1, 0, 1 / 2⟩
    (by simp [straightLapData]) (by simp [straightLapData])
    (fun k q1 q2 hk _ _ => absurd hk (Nat.not_lt_zero k))
    hlsi
  refine ⟨?_, by simp [straightLapData], by norm_num, by norm_num⟩
  rw [happ.1]
  norm_num [straightSample]

/-- The anchor time of a perpendicular gate is the anchor sample's time:
the geometry never changes the stored time field. -/
@[simp]
theorem createPerpendicularLine_time (ops : RealOps α) (c : Sample α)
    (d : List (Sample α)) (i : Nat) :
    (createPerpendicularLine ops c d i).time = c.time := rfl

/-- Every provisional sector ends either at the start of a retained
deceleration period or at the lap's last sample time. -/
theorem sectorsBetween_endTime (decels : List (TimeSpan α)) :
    ∀ (start lastTime : α) (s : TimeSpan α), s ∈ sectorsBetween start lastTime decels →
      s.endTime ∈ decels.map (fun d => d.startTime) ∨ s.endTime = lastTime := by
  induction decels with
  | nil =>
    intro start lastTime s hs
    simp only [sectorsBetween] at hs
    split at hs
    · right
      rcases List.mem_singleton.mp hs with rfl
      rfl
    · simp at hs
  | cons d rest ih =>
    intro start lastTime s hs
    simp only [sectorsBetween] at hs
    split at hs
    · rcases List.mem_cons.mp hs with rfl | hmem
      · left
        simp
      · rcases ih d.endTime lastTime s hmem with hin | heq
        · left
          simp only [List.map_cons, List.mem_cons]
          right
          exact hin
        · right
          exact heq
    · rcases ih d.endTime lastTime s hs with hin | heq
      · left
        simp only [List.map_cons, List.mem_cons]
        right
        exact hin
      · right
        exact heq

/-- Unfolding equation of mergeSectors for the empty sector list. -/
theorem mergeSectors_nil (acc : List (TimeSpan α)) : mergeSectors acc [] = acc.reverse := by
  rw [mergeSectors.eq_def]

/-- Unfolding equation of mergeSectors for a single remaining sector. -/
theorem mergeSectors_single (acc : List (TimeSpan α)) (s0 : TimeSpan α) :
    mergeSectors acc [s0] =
      if s0.duration < 5 then
        match acc with
        | prev :: accRest =>
          ((⟨prev.startTime, s0.endTime, s0.endTime - prev.startTime⟩ : TimeSpan α)
            :: accRest).reverse
        | [] => [s0]
      else (s0 :: acc).reverse := by
  rw [mergeSectors.eq_def]

/-- Unfolding equation of mergeSectors for at least two remaining
sectors. -/
theorem mergeSectors_cons2 (acc : List (TimeSpan α)) (s0 s1 : TimeSpan α)
    (rest : List (TimeSpan α)) :
    mergeSectors acc (s0 :: s1 :: rest) =
      if s0.duration < 5 then
        mergeSectors acc
          ((⟨s0.startTime, s1.endTime, s1.endTime - s0.startTime⟩ : TimeSpan α) :: rest)
      else mergeSectors (s0 :: acc) (s1 :: rest) := by
  rw [mergeSectors.eq_def]

/-- Merging short sectors only reuses end times already present: each
merged sector ends where some input sector (or already-emitted sector)
ended. -/
theorem mergeSectors_endTime (n : Nat) :
    ∀ (l acc : List (TimeSpan α)), l.length ≤ n → ∀ s ∈ mergeSectors acc l,
      s.endTime ∈ acc.map (fun x => x.endTime) ∨
      s.endTime ∈ l.map (fun x => x.endTime) := by
  induction n with
  | zero =>
    intro l acc hlen s hs
    match l with
    | [] =>
      left
      rw [mergeSectors_nil] at hs
      exact List.mem_map_of_mem _ (List.mem_reverse.mp hs)
    | x :: xs => simp at hlen
  | succ n ih =>
    intro l acc hlen s hs
    match l with
    | [] =>
      left
      rw [mergeSectors_nil] at hs
      exact List.mem_map_of_mem _ (List.mem_reverse.mp hs)
    | [s0] =>
      rw [mergeSectors_single] at hs
      split at hs
      · match acc with
        | prev :: accRest =>
          rcases List.mem_cons.mp (List.mem_reverse.mp hs) with rfl | hmem
          · right
            simp
          · left
            simp only [List.map_cons, List.mem_cons]
            right
            exact List.mem_map_of_mem _ hmem
        | [] =>
          right
          rcases List.mem_singleton.mp hs with rfl
          simp
      · rcases List.mem_cons.mp (List.mem_reverse.mp hs) with rfl | hmem
        · right
          simp
        · left
          exact List.mem_map_of_mem _ hmem
    | s0 :: s1 :: rest =>
      rw [mergeSectors_cons2] at hs
      split at hs
      · have hlen2 : ((⟨s0.startTime, s1.endTime, s1.endTime - s0.startTime⟩ : TimeSpan α)
            :: rest).length ≤ n := by
          simp at hlen ⊢
          omega
        rcases ih _ acc hlen2 s hs with hin | hin
        · left
          exact hin
        · right
          simp only [List.map_cons, List.mem_cons] at hin ⊢
          tauto
      · have hlen2 : (s1 :: rest).length ≤ n := by
          simp at hlen ⊢
          omega
        rcases ih (s1 :: rest) (s0 :: acc) hlen2 s hs with hin | hin
        · simp only [List.map_cons, List.mem_cons] at hin
          rcases hin with heq | hin
          · right
            simp only [List.map_cons, List.mem_cons]
            left
            exact heq
          · left
            exact hin
        · right
          simp only [List.map_cons, List.mem_cons] at hin ⊢
          tauto

/-- The gate times produced by the filterMap of createSectorBorders, read
off before sorting: one anchor-sample time per period that survives the
2-second margin check. -/
theorem filterMap_border_times (ops : RealOps α) (lapData : List (Sample α)) :
    ∀ (periods : List (AccelPeriod α)) (lapEndTime : α),
    ((periods.filterMap (fun period =>
        if lapEndTime - (period.endTime - 1 / 5) < 2 then none
        else
          some (createPerpendicularLine ops
            (lapData.getD (closestIndexTo lapData (period.endTime - 1 / 5)) defaultSample)
            lapData (closestIndexTo lapData (period.endTime - 1 / 5))))).map
      (fun b => b.time)) =
    (periods.filter (fun p =>
        decide (2 ≤ lapEndTime - (p.endTime - 1 / 5)))).map
      (fun p => (lapData.getD (closestIndexTo lapData (p.endTime - 1 / 5))
        defaultSample).time) := by
  intro periods lapEndTime
  induction periods with
  | nil => rfl
  | cons p rest ih =>
    by_cases hc : lapEndTime - (p.endTime - 1 / 5) < 2
    · have hcb : decide (2 ≤ lapEndTime - (p.endTime - 1 / 5)) = false :=
        decide_eq_false (not_le.mpr hc)
      simp only [List.filterMap_cons, if_pos hc, List.filter_cons, hcb,
        Bool.false_eq_true, if_false]
      exact ih
    · have hcb : decide (2 ≤ lapEndTime - (p.endTime - 1 / 5)) = true :=
        decide_eq_true (not_lt.mp hc)
      simp only [List.filterMap_cons, if_neg hc, List.filter_cons, hcb, if_true,
        List.map_cons, createPerpendicularLine_time]
      rw [ih]

/-- Sorting borders by time with the source's comparator leaves the time
projection sorted. -/
theorem mergeSortTimeSorted (l : List (Border α)) :
    List.Sorted (· ≤ ·)
      ((l.mergeSort (fun a b => decide (a.time ≤ b.time))).map (fun b => b.time)) := by
  have hpair := @List.sorted_mergeSort (Border α)
    (fun a b => decide (a.time ≤ b.time))
    (fun a b c hab hbc => by
      simp only [decide_eq_true_eq] at hab hbc ⊢
      exact le_trans hab hbc)
    (fun a b => by
      simp only [Bool.or_eq_true, decide_eq_true_eq]
      exact le_total a.time b.time)
    l
  refine List.Pairwise.map _ ?_ hpair
  intro a b hab
  simpa using hab

/-- C1 (amended): the gate times of createSectorBorders are exactly the
sorted anchor times of the acceleration periods that survive the 2-second
margin check, each anchored at the sample closest (early-exit search) to
the period's endTime minus 0.2 s; and every acceleration period ends
either at the start of a retained deceleration episode (so each gate is
targeted 0.2 s before a deceleration episode begins, not before it ends)
or at the lap's last sample time (such a period is always skipped by the
margin check). -/
theorem c1_gate_placement (ops : RealOps α) (lapData : List (Sample α)) :
    (((createSectorBorders ops lapData (findAccelerationPeriods lapData)).map
        (fun b => b.time)).Perm
      (((findAccelerationPeriods lapData).filter (fun p =>
          decide (2 ≤ (lapData.getLastD defaultSample).time - (p.endTime - 1 / 5)))).map
        (fun p => (lapData.getD (closestIndexTo lapData (p.endTime - 1 / 5))
          defaultSample).time))) ∧
    List.Sorted (· ≤ ·)
      ((createSectorBorders ops lapData (findAccelerationPeriods lapData)).map
        (fun b => b.time)) ∧
    (∀ p ∈ findAccelerationPeriods lapData,
      (∃ d ∈ decelerationPeriods lapData, p.endTime = d.startTime) ∨
      p.endTime = (lapData.getLastD defaultSample).time) := by
  refine ⟨?_, ?_, ?_⟩
  · simp only [createSectorBorders]
    refine List.Perm.trans (List.Perm.map _ (List.mergeSort_perm _ _)) ?_
    rw [filterMap_border_times]
  · simp only [createSectorBorders]
    apply mergeSortTimeSorted
  · intro p hp
    simp only [findAccelerationPeriods] at hp
    split at hp
    · simp at hp
    · rename_i hlen2
      match lapData, hp with
      | d :: rest, hp =>
        rcases List.mem_map.mp hp with ⟨s, hs, rfl⟩
        have hend := mergeSectors_endTime (α := α)
          ((sectorsBetween d.time ((d :: rest).getLast (List.cons_ne_nil d rest)).time
            (decelScan d none rest)).length)
          (sectorsBetween d.time ((d :: rest).getLast (List.cons_ne_nil d rest)).time
            (decelScan d none rest)) [] (le_refl _) s hs
        rcases hend with hin | hin
        · simp at hin
        · rcases List.mem_map.mp hin with ⟨s2, hs2, hseq⟩
          have hprov := sectorsBetween_endTime (decelScan d none rest) d.time
            ((d :: rest).getLast (List.cons_ne_nil d rest)).time s2 hs2
          have hlast : ((d :: rest).getLast (List.cons_ne_nil d rest)) =
              (d :: rest).getLastD defaultSample := by
            rw [List.getLastD_eq_getLast?, List.getLast?_eq_getLast (d :: rest)
              (List.cons_ne_nil d rest)]
            rfl
          rcases hprov with hin2 | heq2
          · left
            rcases List.mem_map.mp hin2 with ⟨dp, hdp, hdeq⟩
            refine ⟨dp, ?_, ?_⟩
            · simpa [decelerationPeriods] using hdp
            · simp only [← hseq, ← hdeq]
          · right
            simp only [← hseq, heq2, hlast]

/-- C1 counterexample: the reference lap brakes from t = 9 to t = 13 (one
retained deceleration episode ending at 13, with ample margin to the lap
end at 30), so the claim calls for a gate at 13 - 0.2 = 12.8; the code
instead targets 0.2 s before the deceleration episode starts and anchors
at the nearest sample, producing a single gate whose time is 9. -/
theorem c1_counterexample :
    decelerationPeriods decelLapData = [⟨9, 13, 4⟩] ∧
    (decelLapData.getLastD defaultSample).time = 30 ∧
    ¬ ((30 : ℝ) - (13 - 1 / 5) < 2) ∧
    (createSectorBorders realOps decelLapData (findAccelerationPeriods decelLapData)).map
      (fun b => b.time) = [9] ∧
    (∀ b ∈ createSectorBorders realOps decelLapData (findAccelerationPeriods decelLapData),
      b.time ≠ 13 - 1 / 5) := by
  have hap : findAccelerationPeriods decelLapData =
      [⟨0, 9, 9, 0, 9, 0⟩, ⟨13, 30, 17, 0, 30, 0⟩] := by
    norm_num [findAccelerationPeriods, decelLapData, decelScan, sectorsBetween, mergeSectors]
  have hmap : (createSectorBorders realOps decelLapData
      (findAccelerationPeriods decelLapData)).map (fun b => b.time) = [9] := by
    rw [hap]
    have h1 : |(44 / 5 : ℝ)| = 44 / 5 := by
      rw [abs_of_nonneg]
      norm_num
    have h2 : |(1 / 5 : ℝ)| = 1 / 5 := by
      rw [abs_of_nonneg]
      norm_num
    have h3 : |(16 / 5 : ℝ)| = 16 / 5 := by
      rw [abs_of_nonneg]
      norm_num
    have h4 : |(21 / 5 : ℝ)| = 21 / 5 := by
      rw [abs_of_nonneg]
      norm_num
    have h5 : |(106 / 5 : ℝ)| = 106 / 5 := by
      rw [abs_of_nonneg]
      norm_num
    norm_num [createSectorBorders, decelLapData, closestIndexTo, closestScanAux,
      h1, h2, h3, h4, h5, List.mergeSort_singleton, List.filterMap]
  refine ⟨?_, ?_, by norm_num, hmap, ?_⟩
  · norm_num [decelerationPeriods, decelLapData, decelScan]
  · norm_num [decelLapData]
  · intro b hb
    have hbt : b.time ∈ (createSectorBorders realOps decelLapData
        (findAccelerationPeriods decelLapData)).map (fun b => b.time) :=
      List.mem_map_of_mem _ hb
    rw [hmap] at hbt
    rcases List.mem_singleton.mp hbt with heq
    rw [heq]
    norm_num

/-- C3 counterexample: in diffTelemetry the sample at t = 20 lies inside
the reference lap's time range (10 to 20, reference lap index 1), so the
claim requires its final diff to be exactly 0; but the sample also opens
lap 2 (range 20 to 32), whose later pass finds the spatial correspondence
at reference time 20 and overwrites the zero with 0 - (20 - 10) = -10. -/
theorem c3_counterexample :
    findBestLapIndex diffLapTimes = Int.ofNat 1 ∧
    (calculateLapStartTimes diffLapTimes).getD 1 0 = 10 ∧
    lapEndTimeOf diffLapTimes (calculateLapStartTimes diffLapTimes) 1 = 20 ∧
    (diffTelemetry.getD 1 defaultSample).time = 20 ∧
    ((10 : ℝ) ≤ (diffTelemetry.getD 1 defaultSample).time ∧
      (diffTelemetry.getD 1 defaultSample).time ≤ 20) ∧
    calculateDiffToBestLap realOps diffLapTimes (calculateLapStartTimes diffLapTimes)
      diffTelemetry = [some 0, some (-10)] ∧
    (calculateDiffToBestLap realOps diffLapTimes (calculateLapStartTimes diffLapTimes)
      diffTelemetry).getD 1 none ≠ some 0 := by
  have hstarts : calculateLapStartTimes diffLapTimes = [0, 10, 20] := by
    norm_num [calculateLapStartTimes, lapStartsAux, diffLapTimes]
  have hmain : calculateDiffToBestLap realOps diffLapTimes
      (calculateLapStartTimes diffLapTimes) diffTelemetry = [some 0, some (-10)] := by
    have hc0 : (0:ℝ) < Real.cos (1 * Real.pi / 180) := by
      apply Real.cos_pos_of_mem_Ioo
      constructor
      · nlinarith [Real.pi_pos]
      · nlinarith [Real.pi_pos]
    have hw0 : 0 < gateHalfWidth := div_pos (by norm_num) hc0
    have hwge : 4 / 10 ^ 5 ≤ gateHalfWidth := by
      rw [gateHalfWidth, le_div_iff₀ hc0]
      nlinarith [Real.cos_le_one (1 * Real.pi / 180)]
    have hne2 : -(gateHalfWidth / 25000) ≠ 0 :=
      neg_ne_zero.mpr (ne_of_gt (by positivity))
    have habs : ¬ (|(-(gateHalfWidth / 25000) : ℝ)| < 1 / 10 ^ 10) := by
      rw [abs_neg, abs_of_pos (by positivity)]
      push_neg
      nlinarith
    have hlsi : lineSegmentIntersection (1 : ℝ) (49999 / 50000) 1 1
        (1 - gateHalfWidth) 1 (1 + gateHalfWidth) 1 = some ⟨1, 1, 1⟩ := by
      simp only [lineSegmentIntersection]
      rw [show (((1:ℝ) - 1) * (1 - 1) -
          (49999 / 50000 - 1) * (1 - gateHalfWidth - (1 + gateHalfWidth))) =
          -(gateHalfWidth / 25000) from by ring]
      rw [show (((1:ℝ) - (1 - gateHalfWidth)) * (1 - 1) -
          (49999 / 50000 - 1) * (1 - gateHalfWidth - (1 + gateHalfWidth))) =
          -(gateHalfWidth / 25000) from by ring]
      rw [show (((1:ℝ) - 1) * (49999 / 50000 - 1) -
          (49999 / 50000 - 1) * (1 - (1 - gateHalfWidth))) = gateHalfWidth / 50000 from by
        ring]
      rw [div_self hne2]
      rw [if_neg habs]
      rw [show (-(gateHalfWidth / 50000) / -(gateHalfWidth / 25000) : ℝ) = 1 / 2 from by
        rw [div_eq_iff hne2]
        ring]
      rw [if_pos (by norm_num)]
      norm_num
    have hline : createPerpendicularLine realOps (⟨20, 0, 0, 0, 0, 1, 1, 0⟩ : Sample ℝ)
        [(⟨21 / 2, 0, 0, 0, 0, 49999 / 50000, 1, 0⟩ : Sample ℝ),
         ⟨20, 0, 0, 0, 0, 1, 1, 0⟩] 0 = boundaryGate := by
      simp only [createPerpendicularLine, realOps, boundaryGate, gateHalfWidth]
      norm_num [Real.cos_zero, Real.sin_zero, Real.sqrt_one]
    have hcross : findBorderCrossing
        [(⟨21 / 2, 0, 0, 0, 0, 49999 / 50000, 1, 0⟩ : Sample ℝ),
         ⟨20, 0, 0, 0, 0, 1, 1, 0⟩] boundaryGate = 20 := by
      simp only [findBorderCrossing, intersectScan, boundaryGate]
      simp only [hlsi]
      norm_num
    rw [hstarts]
    simp only [calculateDiffToBestLap, diffLapTimes, diffTelemetry]
    have habs12 : |(1 / 2 : ℝ)| < 1 := by
      rw [abs_of_nonneg (by norm_num : (0:ℝ) ≤ 1 / 2)]
      norm_num
    have habs192 : ¬ (|(19 / 2 : ℝ)| < 1 / 1000) := by
      rw [abs_of_nonneg (by norm_num : (0:ℝ) ≤ 19 / 2)]
      norm_num
    norm_num [findBestLapIndex, bestScanAux, lapEndTimeOf, List.range_succ, lapPass,
      bestLapPass, diffPass, diffStep, findCorrespondingTimeInBestLap, List.filter,
      hline, hcross, habs12, habs192, List.zip, List.zipWith, List.replicate]
  refine ⟨?_, ?_, ?_, ?_, ?_, hmain, ?_⟩
  · norm_num [findBestLapIndex, bestScanAux, diffLapTimes]
  · rw [hstarts]
    norm_num
  · rw [hstarts]
    norm_num [lapEndTimeOf, diffLapTimes]
  · norm_num [diffTelemetry]
  · norm_num [diffTelemetry]
  · rw [hmain]
    norm_num

/-- List.findIdx? with an explicit accumulator returns the first matching
index: if the element at index i matches and nothing before it does, the
scan from accumulator s yields s + i. -/
theorem findIdxAux_spec {X : Type} (pred : X → Bool) :
    ∀ (l : List X) (i : Nat) (x : X), l[i]? = some x → pred x = true →
    (∀ j y, j < i → l[j]? = some y → pred y = false) →
    ∀ s : Nat, List.findIdx? pred l s = some (s + i) := by
  intro l
  induction l with
  | nil => intro i x hix; simp at hix
  | cons a rest ih =>
    intro i x hix hpx hbefore s
    cases i with
    | zero =>
      have : a = x := by simpa using hix
      subst this
      simp [List.findIdx?, hpx]
    | succ n =>
      have hpa : pred a = false := hbefore 0 a (Nat.succ_pos n) (by simp)
      have hrest : rest[n]? = some x := by simpa using hix
      have hbefore2 : ∀ j y, j < n → rest[j]? = some y → pred y = false := by
        intro j y hj hjy
        exact hbefore (j + 1) y (by omega) (by simpa using hjy)
      have := ih n x hrest hpx hbefore2 (s + 1)
      simp only [List.findIdx?, hpa, this]
      simp
      omega

/-- Under 1 ms separation of consecutive telemetry times, the 1 ms
time-window search of the source finds exactly the sample's own index. -/
theorem findIdx_time_self (tel : List (Sample α))
    (hsep : tel.Pairwise (fun a b => a.time + 1 / 1000 ≤ b.time))
    (i : Nat) (p : Sample α) (hip : tel[i]? = some p) :
    tel.findIdx? (fun point => decide (|point.time - p.time| < 1 / 1000)) = some i := by
  have hilt : i < tel.length := by
    rcases List.getElem?_eq_some_iff.mp hip with ⟨h, _⟩
    exact h
  have hpw := List.pairwise_iff_getElem.mp hsep
  have hi : tel[i] = p := by
    rcases List.getElem?_eq_some_iff.mp hip with ⟨h, he⟩
    exact he
  have h0 : (fun point : Sample α => decide (|point.time - p.time| < 1 / 1000)) p = true := by
    simp
  have hbefore : ∀ j y, j < i → tel[j]? = some y →
      (fun point : Sample α => decide (|point.time - p.time| < 1 / 1000)) y = false := by
    intro j y hj hjy
    rcases List.getElem?_eq_some_iff.mp hjy with ⟨hjlt, hje⟩
    have hsepj := hpw j i hjlt hilt hj
    rw [hje, hi] at hsepj
    simp only [decide_eq_false_iff_not, not_lt]
    rw [abs_sub_comm, abs_of_nonneg (by linarith)]
    linarith
  have := findIdxAux_spec _ tel i p hip h0 hbefore 0
  simpa using this

/-- Writing at an index yields that value back when reading it, provided
the index is in bounds. -/
theorem set_getElem_self {X : Type} : ∀ (l : List X) (i : Nat) (v : X),
    i < l.length → (l.set i v)[i]? = some v := by
  intro l
  induction l with
  | nil => intro i v h; simp at h
  | cons a rest ih =>
    intro i v h
    cases i with
    | zero => simp
    | succ n => simpa [List.set] using ih n v (by simpa using h)

/-- Writing at one index does not change reads at a different index. -/
theorem set_getElem_ne {X : Type} : ∀ (l : List X) (j : Nat) (v : X) (i : Nat),
    j ≠ i → (l.set j v)[i]? = l[i]? := by
  intro l
  induction l with
  | nil => intro j v i h; simp
  | cons a rest ih =>
    intro j v i h
    cases j with
    | zero =>
      cases i with
      | zero => exact absurd rfl h
      | succ m => simp [List.set]
    | succ n =>
      cases i with
      | zero => simp [List.set]
      | succ m => simpa [List.set] using ih n v m (by omega)

/-- Reading the reference-lap pass at an in-bounds index: the sample's
diff becomes 0 inside the range and keeps its old value outside it. -/
theorem bestLapPass_getElem (s e : α) :
    ∀ (tel : List (Sample α)) (ds : List (Option α)) (i : Nat) (p : Sample α)
      (d : Option α), tel[i]? = some p → ds[i]? = some d →
    (bestLapPass s e tel ds)[i]? =
      some (if s ≤ p.time ∧ p.time ≤ e then some 0 else d) := by
  intro tel
  induction tel with
  | nil => intro ds i p d hp; simp at hp
  | cons a tel ih =>
    intro ds i p d hp hd
    cases ds with
    | nil => simp at hd
    | cons d0 ds =>
      cases i with
      | zero =>
        have hap : a = p := by simpa using hp
        have hdd : d0 = d := by simpa using hd
        subst hap hdd
        simp [bestLapPass]
      | succ n =>
        have hp2 : tel[n]? = some p := by simpa using hp
        have hd2 : ds[n]? = some d := by simpa using hd
        simpa [bestLapPass] using ih ds n p d hp2 hd2

theorem bestLapPass_length (s e : α) (tel : List (Sample α))
    (ds : List (Option α)) :
    (bestLapPass s e tel ds).length = min tel.length ds.length := by
  simp [bestLapPass]

/-- A correspondence lookup can only succeed on a nonempty reference
lap (the source bails out on an empty one). -/
theorem findCorresponding_some_ne_nil (ops : RealOps α)
    (bld : List (Sample α)) (bst : α) (p : Sample α) (prog c : α)
    (h : findCorrespondingTimeInBestLap ops bld bst p prog = some c) :
    bld.length ≠ 0 := by
  intro hlen
  rw [findCorrespondingTimeInBestLap, if_pos (Or.inr (Or.inr hlen))] at h
  cases h

theorem diffStep_length (ops : RealOps α) (bld : List (Sample α)) (bst : α)
    (tel : List (Sample α)) (s : α) (ds : List (Option α)) (q : Sample α) :
    (diffStep ops bld bst tel s ds q).length = ds.length := by
  simp only [diffStep]
  cases findCorrespondingTimeInBestLap ops bld bst q (q.time - s) with
  | none => rfl
  | some c =>
    cases tel.findIdx? (fun point => decide (|point.time - q.time| < 1 / 1000)) with
    | none => rfl
    | some j => simp

/-- A sample sitting at another index than the tracked one never writes
the tracked index. -/
theorem diffStep_getElem_ne (ops : RealOps α) (bld : List (Sample α)) (bst : α)
    (tel : List (Sample α)) (s : α)
    (hsep : tel.Pairwise (fun a b => a.time + 1 / 1000 ≤ b.time))
    (i : Nat) (ds : List (Option α)) (q : Sample α) (m : Nat)
    (hm : tel[m]? = some q) (hne : m ≠ i) :
    (diffStep ops bld bst tel s ds q)[i]? = ds[i]? := by
  simp only [diffStep]
  cases hc : findCorrespondingTimeInBestLap ops bld bst q (q.time - s) with
  | none => rfl
  | some c =>
    rw [findIdx_time_self tel hsep m q hm]
    exact set_getElem_ne ds m _ i hne

/-- The tracked sample's own step: no correspondence leaves the array
untouched. -/
theorem diffStep_getElem_self_none (ops : RealOps α) (bld : List (Sample α))
    (bst : α) (tel : List (Sample α)) (s : α) (ds : List (Option α))
    (p : Sample α)
    (hcorr : findCorrespondingTimeInBestLap ops bld bst p (p.time - s) = none) :
    diffStep ops bld bst tel s ds p = ds := by
  simp only [diffStep, hcorr]

/-- The tracked sample's own step: a found correspondence writes exactly
progress minus reference progress at the tracked index. -/
theorem diffStep_getElem_self_some (ops : RealOps α) (bld : List (Sample α))
    (bst : α) (tel : List (Sample α)) (s : α)
    (hsep : tel.Pairwise (fun a b => a.time + 1 / 1000 ≤ b.time))
    (i : Nat) (p : Sample α) (hip : tel[i]? = some p)
    (ds : List (Option α)) (hlen : ds.length = tel.length) (c : α)
    (hcorr : findCorrespondingTimeInBestLap ops bld bst p (p.time - s) = some c) :
    (diffStep ops bld bst tel s ds p)[i]? =
      some (some ((p.time - s) - (c - bst))) := by
  have hilt : i < tel.length := by
    rcases List.getElem?_eq_some_iff.mp hip with ⟨h, _⟩
    exact h
  simp only [diffStep, hcorr]
  rw [findIdx_time_self tel hsep i p hip]
  exact set_getElem_self ds i _ (by omega)

theorem foldl_diffStep_length (ops : RealOps α) (bld : List (Sample α))
    (bst : α) (tel : List (Sample α)) (s : α) :
    ∀ (L : List (Sample α)) (ds : List (Option α)),
    (L.foldl (diffStep ops bld bst tel s) ds).length = ds.length := by
  intro L
  induction L with
  | nil => intro ds; rfl
  | cons q L ih =>
    intro ds
    rw [List.foldl_cons, ih, diffStep_length]

/-- Effect of one correspondence fold on the tracked index: untouched if
the tracked sample is absent or has no correspondence, otherwise set to
its progress difference. -/
theorem diffFold_getElem (ops : RealOps α) (bld : List (Sample α)) (bst : α)
    (tel : List (Sample α)) (s : α)
    (hsep : tel.Pairwise (fun a b => a.time + 1 / 1000 ≤ b.time))
    (i : Nat) (p : Sample α) (hip : tel[i]? = some p) :
    ∀ (L : List (Sample α)), L.Sublist tel →
    ∀ (ds : List (Option α)), ds.length = tel.length →
    ((p ∉ L → (L.foldl (diffStep ops bld bst tel s) ds)[i]? = ds[i]?) ∧
     (p ∈ L → findCorrespondingTimeInBestLap ops bld bst p (p.time - s) = none →
       (L.foldl (diffStep ops bld bst tel s) ds)[i]? = ds[i]?) ∧
     (∀ c, p ∈ L →
       findCorrespondingTimeInBestLap ops bld bst p (p.time - s) = some c →
       (L.foldl (diffStep ops bld bst tel s) ds)[i]? =
         some (some ((p.time - s) - (c - bst))))) := by
  intro L
  induction L with
  | nil =>
    intro _ ds _
    refine ⟨fun _ => rfl, fun hmem => absurd hmem (by simp), fun c hmem => absurd hmem (by simp)⟩
  | cons q L ih =>
    intro hsub ds hlen
    have hsubL : L.Sublist tel := (List.sublist_cons_self q L).trans hsub
    have hlen1 : (diffStep ops bld bst tel s ds q).length = tel.length := by
      rw [diffStep_length]; exact hlen
    obtain ⟨ih1, ih2, ih3⟩ := ih hsubL (diffStep ops bld bst tel s ds q) hlen1
    obtain ⟨jh1, jh2, jh3⟩ := ih hsubL ds hlen
    have hqtel : q ∈ tel := hsub.subset (List.mem_cons_self q L)
    obtain ⟨m, hmlt, hme⟩ := List.getElem_of_mem hqtel
    have hm : tel[m]? = some q := by
      rw [List.getElem?_eq_getElem hmlt, hme]
    refine ⟨?_, ?_, ?_⟩
    · intro hpout
      have hqp : q ≠ p := fun h => hpout (by rw [← h]; exact List.mem_cons_self q L)
      have hmi : m ≠ i := by
        intro h
        rw [h, hip] at hm
        exact hqp (Option.some_inj.mp hm).symm
      rw [List.foldl_cons, ih1 (fun h => hpout (List.mem_cons_of_mem q h)),
        diffStep_getElem_ne ops bld bst tel s hsep i ds q m hm hmi]
    · intro hpmem hcorr
      rw [List.foldl_cons]
      by_cases hqp : q = p
      · subst hqp
        rw [diffStep_getElem_self_none ops bld bst tel s ds q hcorr]
        by_cases hpL : q ∈ L
        · exact jh2 hpL hcorr
        · exact jh1 hpL
      · have hpL : p ∈ L := by
          rcases List.mem_cons.mp hpmem with h | h
          · exact absurd h.symm hqp
          · exact h
        have hmi : m ≠ i := by
          intro h
          rw [h, hip] at hm
          exact hqp (Option.some_inj.mp hm).symm
        rw [ih2 hpL hcorr,
          diffStep_getElem_ne ops bld bst tel s hsep i ds q m hm hmi]
    · intro c hpmem hcorr
      rw [List.foldl_cons]
      by_cases hqp : q = p
      · subst hqp
        have hpL : q ∉ L := by
          intro hpL
          have hpw2 := hsep.sublist hsub
          rw [List.pairwise_cons] at hpw2
          have := hpw2.1 q hpL
          linarith
        rw [ih1 hpL,
          diffStep_getElem_self_some ops bld bst tel s hsep i q hip ds hlen c hcorr]
      · have hpL : p ∈ L := by
          rcases List.mem_cons.mp hpmem with h | h
          · exact absurd h.symm hqp
          · exact h
        exact ih3 c hpL hcorr

/-- Reading the correspondence pass at the tracked index when the tracked
sample lies outside the lap's range: unchanged. -/
theorem diffPass_getElem_out (ops : RealOps α) (bld : List (Sample α))
    (bst : α) (tel : List (Sample α)) (s e : α) (ds : List (Option α))
    (hsep : tel.Pairwise (fun a b => a.time + 1 / 1000 ≤ b.time))
    (hlen : ds.length = tel.length) (i : Nat) (p : Sample α)
    (hip : tel[i]? = some p) (hout : ¬ (s ≤ p.time ∧ p.time ≤ e)) :
    (diffPass ops bld bst tel s e ds)[i]? = ds[i]? := by
  simp only [diffPass]
  split
  · rfl
  · have hfsub := List.filter_sublist
      (l := tel) (p := fun q => decide (s ≤ q.time ∧ q.time ≤ e))
    obtain ⟨h1, _, _⟩ := diffFold_getElem ops bld bst tel s hsep i p hip _ hfsub ds hlen
    refine h1 ?_
    intro hpmem
    exact hout (by simpa using (List.mem_filter.mp hpmem).2)

/-- Reading the correspondence pass at the tracked index when the tracked
sample has no correspondence: unchanged, never coerced to zero. -/
theorem diffPass_getElem_none (ops : RealOps α) (bld : List (Sample α))
    (bst : α) (tel : List (Sample α)) (s e : α) (ds : List (Option α))
    (hsep : tel.Pairwise (fun a b => a.time + 1 / 1000 ≤ b.time))
    (hlen : ds.length = tel.length) (i : Nat) (p : Sample α)
    (hip : tel[i]? = some p)
    (hcorr : findCorrespondingTimeInBestLap ops bld bst p (p.time - s) = none) :
    (diffPass ops bld bst tel s e ds)[i]? = ds[i]? := by
  simp only [diffPass]
  split
  · rfl
  · have hfsub := List.filter_sublist
      (l := tel) (p := fun q => decide (s ≤ q.time ∧ q.time ≤ e))
    obtain ⟨h1, h2, _⟩ := diffFold_getElem ops bld bst tel s hsep i p hip _ hfsub ds hlen
    by_cases hpmem : p ∈ tel.filter (fun q => decide (s ≤ q.time ∧ q.time ≤ e))
    · exact h2 hpmem hcorr
    · exact h1 hpmem

/-- Reading the correspondence pass at the tracked index when the tracked
sample lies in the lap's range and a correspondence is found: the recorded
diff is lap progress minus reference progress. -/
theorem diffPass_getElem_some (ops : RealOps α) (bld : List (Sample α))
    (bst : α) (tel : List (Sample α)) (s e : α) (ds : List (Option α))
    (hsep : tel.Pairwise (fun a b => a.time + 1 / 1000 ≤ b.time))
    (hlen : ds.length = tel.length) (i : Nat) (p : Sample α)
    (hip : tel[i]? = some p) (hr1 : s ≤ p.time) (hr2 : p.time ≤ e) (c : α)
    (hcorr : findCorrespondingTimeInBestLap ops bld bst p (p.time - s) = some c) :
    (diffPass ops bld bst tel s e ds)[i]? =
      some (some ((p.time - s) - (c - bst))) := by
  have hbld := findCorresponding_some_ne_nil ops bld bst p (p.time - s) c hcorr
  have hptel : p ∈ tel := by
    rcases List.getElem?_eq_some_iff.mp hip with ⟨h, he⟩
    rw [← he]
    exact List.getElem_mem h
  have hpmem : p ∈ tel.filter (fun q => decide (s ≤ q.time ∧ q.time ≤ e)) :=
    List.mem_filter.mpr ⟨hptel, by simp [hr1, hr2]⟩
  have hglen : ¬ ((tel.filter (fun q => decide (s ≤ q.time ∧ q.time ≤ e))).length = 0 ∨
      bld.length = 0) := by
    push_neg
    refine ⟨?_, hbld⟩
    intro h0
    rw [List.length_eq_zero] at h0
    rw [h0] at hpmem
    simp at hpmem
  simp only [diffPass]
  rw [if_neg hglen]
  have hfsub := List.filter_sublist
    (l := tel) (p := fun q => decide (s ≤ q.time ∧ q.time ≤ e))
  obtain ⟨_, _, h3⟩ := diffFold_getElem ops bld bst tel s hsep i p hip _ hfsub ds hlen
  exact h3 c hpmem hcorr

theorem diffPass_length (ops : RealOps α) (bld : List (Sample α)) (bst : α)
    (tel : List (Sample α)) (s e : α) (ds : List (Option α)) :
    (diffPass ops bld bst tel s e ds).length = ds.length := by
  simp only [diffPass]
  split
  · rfl
  · rw [foldl_diffStep_length]

theorem lapPass_length (ops : RealOps α) (lapTimes starts : List α)
    (bestIdx : Nat) (bld : List (Sample α)) (bst : α) (tel : List (Sample α))
    (ds : List (Option α)) (hlen : ds.length = tel.length) (k : Nat) :
    (lapPass ops lapTimes starts bestIdx bld bst tel ds k).length = tel.length := by
  simp only [lapPass]
  split
  · rw [bestLapPass_length, hlen, Nat.min_self]
  · rw [diffPass_length, hlen]

/-- A pass over a lap whose range excludes the tracked sample's time
leaves the tracked index unchanged, whether it is the reference pass or a
correspondence pass. -/
theorem lapPass_preserve_out (ops : RealOps α) (lapTimes starts : List α)
    (bestIdx : Nat) (bld : List (Sample α)) (bst : α) (tel : List (Sample α))
    (hsep : tel.Pairwise (fun a b => a.time + 1 / 1000 ≤ b.time))
    (i : Nat) (p : Sample α) (hip : tel[i]? = some p)
    (ds : List (Option α)) (hlen : ds.length = tel.length) (k : Nat)
    (hout : ¬ (starts.getD k 0 ≤ p.time ∧
      p.time ≤ lapEndTimeOf lapTimes starts k)) :
    (lapPass ops lapTimes starts bestIdx bld bst tel ds k)[i]? = ds[i]? := by
  have hilt : i < tel.length := by
    rcases List.getElem?_eq_some_iff.mp hip with ⟨h, _⟩
    exact h
  simp only [lapPass]
  split
  · have hilt2 : i < ds.length := by omega
    obtain ⟨d, hd⟩ : ∃ d, ds[i]? = some d :=
      ⟨ds.get ⟨i, hilt2⟩, List.getElem?_eq_getElem hilt2⟩
    rw [bestLapPass_getElem _ _ tel ds i p d hip hd, if_neg hout, hd]
  · exact diffPass_getElem_out ops bld bst tel _ _ ds hsep hlen i p hip hout

/-- A correspondence pass for a non-reference lap with no correspondence
for the tracked sample leaves the tracked index unchanged. -/
theorem lapPass_preserve_none (ops : RealOps α) (lapTimes starts : List α)
    (bestIdx : Nat) (bld : List (Sample α)) (bst : α) (tel : List (Sample α))
    (hsep : tel.Pairwise (fun a b => a.time + 1 / 1000 ≤ b.time))
    (i : Nat) (p : Sample α) (hip : tel[i]? = some p)
    (ds : List (Option α)) (hlen : ds.length = tel.length) (k : Nat)
    (hk : ¬ (k = bestIdx))
    (hcorr : findCorrespondingTimeInBestLap ops bld bst p
      (p.time - starts.getD k 0) = none) :
    (lapPass ops lapTimes starts bestIdx bld bst tel ds k)[i]? = ds[i]? := by
  simp only [lapPass, if_neg hk]
  exact diffPass_getElem_none ops bld bst tel _ _ ds hsep hlen i p hip hcorr

/-- A run of passes each of which leaves the tracked index unchanged
leaves the tracked index unchanged. -/
theorem foldPasses_preserve (ops : RealOps α) (lapTimes starts : List α)
    (bestIdx : Nat) (bld : List (Sample α)) (bst : α) (tel : List (Sample α))
    (hsep : tel.Pairwise (fun a b => a.time + 1 / 1000 ≤ b.time))
    (i : Nat) (p : Sample α) (hip : tel[i]? = some p) :
    ∀ (KS : List Nat) (ds : List (Option α)), ds.length = tel.length →
    (∀ k ∈ KS, ¬ (starts.getD k 0 ≤ p.time ∧
        p.time ≤ lapEndTimeOf lapTimes starts k) ∨
      (¬ (k = bestIdx) ∧ findCorrespondingTimeInBestLap ops bld bst p
        (p.time - starts.getD k 0) = none)) →
    (KS.foldl (lapPass ops lapTimes starts bestIdx bld bst tel) ds)[i]? =
      ds[i]? := by
  intro KS
  induction KS with
  | nil => intro ds _ _; rfl
  | cons k KS ih =>
    intro ds hlen hcond
    rw [List.foldl_cons,
      ih _ (lapPass_length ops lapTimes starts bestIdx bld bst tel ds hlen k)
        (fun k2 hk2 => hcond k2 (List.mem_cons_of_mem k hk2))]
    rcases hcond k (List.mem_cons_self k KS) with hout | ⟨hk, hnone⟩
    · exact lapPass_preserve_out ops lapTimes starts bestIdx bld bst tel hsep
        i p hip ds hlen k hout
    · exact lapPass_preserve_none ops lapTimes starts bestIdx bld bst tel hsep
        i p hip ds hlen k hk hnone

theorem foldPasses_length (ops : RealOps α) (lapTimes starts : List α)
    (bestIdx : Nat) (bld : List (Sample α)) (bst : α) (tel : List (Sample α)) :
    ∀ (KS : List Nat) (ds : List (Option α)), ds.length = tel.length →
    (KS.foldl (lapPass ops lapTimes starts bestIdx bld bst tel) ds).length =
      tel.length := by
  intro KS
  induction KS with
  | nil => intro ds hlen; exact hlen
  | cons k KS ih =>
    intro ds hlen
    rw [List.foldl_cons]
    exact ih _ (lapPass_length ops lapTimes starts bestIdx bld bst tel ds hlen k)

/-- With nonnegative lap times the computed lap start times are monotone
in the lap index. -/
theorem lapStarts_mono (lapTimes : List α) (hpos : ∀ t ∈ lapTimes, 0 ≤ t) :
    ∀ (a b : Nat), a ≤ b → b < lapTimes.length →
    (calculateLapStartTimes lapTimes).getD a 0 ≤
      (calculateLapStartTimes lapTimes).getD b 0 := by
  intro a b
  induction b with
  | zero =>
    intro hab _
    have : a = 0 := Nat.le_zero.mp hab
    rw [this]
  | succ m ih =>
    intro hab hlt
    rcases Nat.lt_or_ge a (m + 1) with h | h
    · have ham : a ≤ m := by omega
      have hm : m < lapTimes.length := by omega
      refine le_trans (ih ham hm) ?_
      have hadj := lapStarts_adjacent lapTimes 0 m (by omega)
      have hnn : 0 ≤ lapTimes.getD m 0 := by
        have := List.getD_eq_getElem lapTimes 0 hm
        rw [this]
        exact hpos _ (List.getElem_mem hm)
      calc (calculateLapStartTimes lapTimes).getD m 0
          ≤ (calculateLapStartTimes lapTimes).getD m 0 + lapTimes.getD m 0 := by
            linarith
        _ = (calculateLapStartTimes lapTimes).getD (m + 1) 0 := hadj.symm
    · have : a = m + 1 := by omega
      rw [this]

/-- When the lap is not the last one, its end time is the next lap's
start time. -/
theorem lapEndTimeOf_eq_next (lapTimes : List α) (k : Nat)
    (h : k + 1 < lapTimes.length) :
    lapEndTimeOf lapTimes (calculateLapStartTimes lapTimes) k =
      (calculateLapStartTimes lapTimes).getD (k + 1) 0 := by
  rw [lapEndTimeOf_eq lapTimes k (by omega)]
  exact (lapStarts_adjacent lapTimes 0 k h).symm

/-- An index the best-lap scan returns is an index into the lap list. -/
theorem findBestLapIndex_lt (lapTimes : List α) (k : Nat)
    (h : findBestLapIndex lapTimes = Int.ofNat k) : k < lapTimes.length := by
  match lapTimes with
  | [] =>
    simp only [findBestLapIndex, Int.ofNat_eq_coe] at h
    omega
  | [t] =>
    simp only [findBestLapIndex, Int.ofNat_eq_coe] at h
    simp only [List.length_singleton]
    omega
  | t0 :: t1 :: rest =>
    simp only [findBestLapIndex, Int.ofNat_eq_coe] at h
    have hk : bestScanAux rest 2 1 t1 = k := by omega
    simp only [List.length_cons]
    rcases bestScanAux_spec rest 2 1 t1 with ⟨heq, _⟩ | ⟨j, hj, heq, _⟩
    · omega
    · omega

/-- Splitting the index range of the main loop at a chosen lap. -/
theorem range_split (n k : Nat) (h : k < n) :
    List.range n = (List.range' 0 k ++ [k]) ++ List.range' (k + 1) (n - (k + 1)) := by
  rw [List.range_eq_range']
  have h1 : List.range' 0 k ++ [k] = List.range' 0 (k + 1) := by
    simpa [Nat.add_comm] using List.range'_append_1 0 k 1
  rw [h1]
  have h2 := List.range'_append_1 0 (k + 1) (n - (k + 1))
  simp only [Nat.zero_add] at h2
  rw [h2]
  congr 1
  omega

theorem getElem_exists_of_lt {X : Type} (l : List X) (i : Nat) (h : i < l.length) :
    ∃ d, l[i]? = some d := ⟨l.get ⟨i, h⟩, List.getElem?_eq_getElem h⟩

/-- If every later lap starts after the tracked sample's time, the main
loop ends up recording diff 0 for a sample in the reference lap's range. -/
theorem foldRange_getElem_best (ops : RealOps α) (lapTimes starts : List α)
    (bestIdx : Nat) (bld : List (Sample α)) (bst : α) (tel : List (Sample α))
    (hsep : tel.Pairwise (fun a b => a.time + 1 / 1000 ≤ b.time))
    (i : Nat) (p : Sample α) (hip : tel[i]? = some p)
    (hn : bestIdx < lapTimes.length)
    (hsuffix : ∀ k2, bestIdx < k2 → k2 < lapTimes.length →
      ¬ (starts.getD k2 0 ≤ p.time))
    (hr : starts.getD bestIdx 0 ≤ p.time ∧
      p.time ≤ lapEndTimeOf lapTimes starts bestIdx) :
    ((List.range lapTimes.length).foldl
      (lapPass ops lapTimes starts bestIdx bld bst tel)
      (List.replicate tel.length none))[i]? = some (some 0) := by
  have hilt : i < tel.length := by
    rcases List.getElem?_eq_some_iff.mp hip with ⟨h, _⟩
    exact h
  rw [range_split lapTimes.length bestIdx hn, List.foldl_append, List.foldl_append,
    List.foldl_cons, List.foldl_nil]
  have hlen1 : (List.foldl (lapPass ops lapTimes starts bestIdx bld bst tel)
      (List.replicate tel.length none) (List.range' 0 bestIdx)).length = tel.length :=
    foldPasses_length ops lapTimes starts bestIdx bld bst tel _ _ (by simp)
  rw [foldPasses_preserve ops lapTimes starts bestIdx bld bst tel hsep i p hip _ _
    (lapPass_length ops lapTimes starts bestIdx bld bst tel _ hlen1 bestIdx)
    (fun k2 hk2 => by
      rw [List.mem_range'_1] at hk2
      exact Or.inl (fun hrange => hsuffix k2 (by omega) (by omega) hrange.1))]
  simp only [lapPass, if_true]
  have hlen2 : i < (List.foldl (lapPass ops lapTimes starts bestIdx bld bst tel)
      (List.replicate tel.length none) (List.range' 0 bestIdx)).length := by
    rw [hlen1]
    exact hilt
  obtain ⟨d, hd⟩ := getElem_exists_of_lt _ i hlen2
  rw [bestLapPass_getElem _ _ tel _ i p d hip hd, if_pos hr]

/-- If every later lap starts after the tracked sample's time, the main
loop ends up recording the correspondence diff of lap k for a sample in
lap k's range. -/
theorem foldRange_getElem_diff_some (ops : RealOps α) (lapTimes starts : List α)
    (bestIdx : Nat) (bld : List (Sample α)) (bst : α) (tel : List (Sample α))
    (hsep : tel.Pairwise (fun a b => a.time + 1 / 1000 ≤ b.time))
    (i : Nat) (p : Sample α) (hip : tel[i]? = some p) (k : Nat) (c : α)
    (hk : k < lapTimes.length) (hkb : ¬ (k = bestIdx))
    (hr1 : starts.getD k 0 ≤ p.time)
    (hr2 : p.time ≤ lapEndTimeOf lapTimes starts k)
    (hcorr : findCorrespondingTimeInBestLap ops bld bst p
      (p.time - starts.getD k 0) = some c)
    (hafter : ∀ k2, k < k2 → k2 < lapTimes.length →
      ¬ (starts.getD k2 0 ≤ p.time)) :
    ((List.range lapTimes.length).foldl
      (lapPass ops lapTimes starts bestIdx bld bst tel)
      (List.replicate tel.length none))[i]? =
      some (some ((p.time - starts.getD k 0) - (c - bst))) := by
  rw [range_split lapTimes.length k hk, List.foldl_append, List.foldl_append,
    List.foldl_cons, List.foldl_nil]
  have hlen1 : (List.foldl (lapPass ops lapTimes starts bestIdx bld bst tel)
      (List.replicate tel.length none) (List.range' 0 k)).length = tel.length :=
    foldPasses_length ops lapTimes starts bestIdx bld bst tel _ _ (by simp)
  rw [foldPasses_preserve ops lapTimes starts bestIdx bld bst tel hsep i p hip _ _
    (lapPass_length ops lapTimes starts bestIdx bld bst tel _ hlen1 k)
    (fun k2 hk2 => by
      rw [List.mem_range'_1] at hk2
      exact Or.inl (fun hrange => hafter k2 (by omega) (by omega) hrange.1))]
  simp only [lapPass]
  rw [if_neg hkb]
  exact diffPass_getElem_some ops bld bst tel _ _ _ hsep hlen1 i p hip hr1 hr2 c hcorr

/-- If every pass either misses the tracked sample's time or finds no
correspondence for it, the tracked diff stays null through the whole main
loop. -/
theorem foldRange_getElem_none (ops : RealOps α) (lapTimes starts : List α)
    (bestIdx : Nat) (bld : List (Sample α)) (bst : α) (tel : List (Sample α))
    (hsep : tel.Pairwise (fun a b => a.time + 1 / 1000 ≤ b.time))
    (i : Nat) (p : Sample α) (hip : tel[i]? = some p)
    (hall : ∀ k2 ∈ List.range lapTimes.length,
      ¬ (starts.getD k2 0 ≤ p.time ∧
        p.time ≤ lapEndTimeOf lapTimes starts k2) ∨
      (¬ (k2 = bestIdx) ∧ findCorrespondingTimeInBestLap ops bld bst p
        (p.time - starts.getD k2 0) = none)) :
    ((List.range lapTimes.length).foldl
      (lapPass ops lapTimes starts bestIdx bld bst tel)
      (List.replicate tel.length none))[i]? = some none := by
  have hilt : i < tel.length := by
    rcases List.getElem?_eq_some_iff.mp hip with ⟨h, _⟩
    exact h
  rw [foldPasses_preserve ops lapTimes starts bestIdx bld bst tel hsep i p hip _ _
    (by simp) hall]
  simp [hilt]

/-- C3 (amended): with lap start times derived from the lap time list,
nonnegative lap times, telemetry samples separated by more than the 1 ms
matching window, and the reference lap picked by findBestLapIndex, the
diff-to-best computation behaves as follows at any sample index.  A sample
from the reference lap's range staying 1 ms clear of the range's end gets
diff exactly 0.  A sample strictly inside a non-reference lap k (1 ms
clear of both lap boundaries) whose correspondence lookup succeeds gets
exactly its lap progress minus the reference progress, and one whose
correspondence lookup fails keeps a null diff, never coerced to zero. -/
theorem c3_diff_to_best (ops : RealOps α) (lapTimes : List α)
    (telemetryData : List (Sample α)) (bestIdx : Nat)
    (hbest : findBestLapIndex lapTimes = Int.ofNat bestIdx)
    (hpos : ∀ t ∈ lapTimes, 0 ≤ t)
    (hsep : telemetryData.Pairwise (fun a b => a.time + 1 / 1000 ≤ b.time)) :
    ∀ (i : Nat) (p : Sample α), telemetryData[i]? = some p →
    (((calculateLapStartTimes lapTimes).getD bestIdx 0 ≤ p.time →
      p.time ≤ lapEndTimeOf lapTimes (calculateLapStartTimes lapTimes) bestIdx
        - 1 / 1000 →
      (calculateDiffToBestLap ops lapTimes (calculateLapStartTimes lapTimes)
        telemetryData)[i]? = some (some 0)) ∧
     (∀ (k : Nat) (c : α), k < lapTimes.length → ¬ (k = bestIdx) →
      (calculateLapStartTimes lapTimes).getD k 0 + 1 / 1000 ≤ p.time →
      p.time ≤ lapEndTimeOf lapTimes (calculateLapStartTimes lapTimes) k
        - 1 / 1000 →
      findCorrespondingTimeInBestLap ops
        (telemetryData.filter (fun q =>
          (calculateLapStartTimes lapTimes).getD bestIdx 0 ≤ q.time ∧
          q.time ≤ lapEndTimeOf lapTimes (calculateLapStartTimes lapTimes) bestIdx))
        ((calculateLapStartTimes lapTimes).getD bestIdx 0) p
        (p.time - (calculateLapStartTimes lapTimes).getD k 0) = some c →
      (calculateDiffToBestLap ops lapTimes (calculateLapStartTimes lapTimes)
        telemetryData)[i]? =
        some (some ((p.time - (calculateLapStartTimes lapTimes).getD k 0) -
          (c - (calculateLapStartTimes lapTimes).getD bestIdx 0)))) ∧
     (∀ k : Nat, k < lapTimes.length → ¬ (k = bestIdx) →
      (calculateLapStartTimes lapTimes).getD k 0 + 1 / 1000 ≤ p.time →
      p.time ≤ lapEndTimeOf lapTimes (calculateLapStartTimes lapTimes) k
        - 1 / 1000 →
      findCorrespondingTimeInBestLap ops
        (telemetryData.filter (fun q =>
          (calculateLapStartTimes lapTimes).getD bestIdx 0 ≤ q.time ∧
          q.time ≤ lapEndTimeOf lapTimes (calculateLapStartTimes lapTimes) bestIdx))
        ((calculateLapStartTimes lapTimes).getD bestIdx 0) p
        (p.time - (calculateLapStartTimes lapTimes).getD k 0) = none →
      (calculateDiffToBestLap ops lapTimes (calculateLapStartTimes lapTimes)
        telemetryData)[i]? = some none)) := by
  intro i p hip
  have hn : bestIdx < lapTimes.length := findBestLapIndex_lt lapTimes bestIdx hbest
  have hilt : i < telemetryData.length := by
    rcases List.getElem?_eq_some_iff.mp hip with ⟨h, _⟩
    exact h
  have hg : ¬ (lapTimes.length = 0 ∨ telemetryData.length = 0) := by
    push_neg
    constructor
    · omega
    · omega
  have hunfold : calculateDiffToBestLap ops lapTimes (calculateLapStartTimes lapTimes)
      telemetryData =
      (List.range lapTimes.length).foldl
        (lapPass ops lapTimes (calculateLapStartTimes lapTimes) bestIdx
          (telemetryData.filter (fun q =>
            (calculateLapStartTimes lapTimes).getD bestIdx 0 ≤ q.time ∧
            q.time ≤ lapEndTimeOf lapTimes (calculateLapStartTimes lapTimes) bestIdx))
          ((calculateLapStartTimes lapTimes).getD bestIdx 0) telemetryData)
        (List.replicate telemetryData.length none) := by
    simp only [calculateDiffToBestLap, hbest]
    rw [if_neg hg]
  refine ⟨?_, ?_, ?_⟩
  · intro hr1 hr2
    rw [hunfold]
    refine foldRange_getElem_best ops lapTimes (calculateLapStartTimes lapTimes)
      bestIdx _ _ telemetryData hsep i p hip hn ?_ ⟨hr1, by linarith⟩
    intro k2 hbk hk2 hle
    have hnext := lapEndTimeOf_eq_next lapTimes bestIdx (by omega)
    have hmono := lapStarts_mono lapTimes hpos (bestIdx + 1) k2 (by omega) hk2
    linarith
  · intro k c hk hkb hr1 hr2 hcorr
    rw [hunfold]
    refine foldRange_getElem_diff_some ops lapTimes (calculateLapStartTimes lapTimes)
      bestIdx _ _ telemetryData hsep i p hip k c hk hkb (by linarith) (by linarith)
      hcorr ?_
    intro k2 hkk2 hk2 hle
    have hend := lapEndTimeOf_eq_next lapTimes k (by omega)
    have hmono := lapStarts_mono lapTimes hpos (k + 1) k2 (by omega) hk2
    linarith
  · intro k hk hkb hr1 hr2 hcorr
    rw [hunfold]
    refine foldRange_getElem_none ops lapTimes (calculateLapStartTimes lapTimes)
      bestIdx _ _ telemetryData hsep i p hip ?_
    intro k2 hk2mem
    have hk2 : k2 < lapTimes.length := List.mem_range.mp hk2mem
    by_cases hcase : k2 = k
    · subst hcase
      exact Or.inr ⟨hkb, hcorr⟩
    · left
      intro hrange
      rcases Nat.lt_or_ge k2 k with hlt | hge
      · have hend := lapEndTimeOf_eq_next lapTimes k2 (by omega)
        have hmono := lapStarts_mono lapTimes hpos (k2 + 1) k (by omega) (by omega)
        have h2 := hrange.2
        linarith
      · have hgt : k < k2 := by omega
        have hend := lapEndTimeOf_eq_next lapTimes k (by omega)
        have hmono := lapStarts_mono lapTimes hpos (k + 1) k2 (by omega) hk2
        have h1 := hrange.1
        linarith

theorem c3_diff_to_best_witness :
    findBestLapIndex ([10, 10, 12] : List ℚ) = Int.ofNat 1 ∧
    (calculateLapStartTimes ([10, 10, 12] : List ℚ)).getD 1 0 ≤ (15 : ℚ) ∧
    (15 : ℚ) ≤ lapEndTimeOf ([10, 10, 12] : List ℚ)
      (calculateLapStartTimes ([10, 10, 12] : List ℚ)) 1 - 1 / 1000 ∧
    (calculateDiffToBestLap ⟨fun _ => 0, fun _ => 0, fun _ => 0, 0⟩
      ([10, 10, 12] : List ℚ) (calculateLapStartTimes ([10, 10, 12] : List ℚ))
      [(⟨15, 0, 0, 0, 0, 1, 1, 0⟩ : Sample ℚ)])[0]? = some (some 0) := by
  have hbest : findBestLapIndex ([10, 10, 12] : List ℚ) = Int.ofNat 1 := by
    norm_num [findBestLapIndex, bestScanAux, Int.ofNat_eq_coe]
  have h1 : (calculateLapStartTimes ([10, 10, 12] : List ℚ)).getD 1 0 ≤ (15 : ℚ) := by
    norm_num [calculateLapStartTimes, lapStartsAux]
  have h2 : (15 : ℚ) ≤ lapEndTimeOf ([10, 10, 12] : List ℚ)
      (calculateLapStartTimes ([10, 10, 12] : List ℚ)) 1 - 1 / 1000 := by
    norm_num [lapEndTimeOf, calculateLapStartTimes, lapStartsAux]
  refine ⟨hbest, h1, h2, ?_⟩
  exact ((c3_diff_to_best ⟨fun _ => 0, fun _ => 0, fun _ => 0, 0⟩
    ([10, 10, 12] : List ℚ) [(⟨15, 0, 0, 0, 0, 1, 1, 0⟩ : Sample ℚ)] 1 hbest
    (by norm_num) (by simp)) 0 (⟨15, 0, 0, 0, 0, 1, 1, 0⟩ : Sample ℚ) rfl).1 h1 h2

end VideoCoach
